import Mathlib

/-!
Verification of the asynchronous job-queue and reconciliation subsystem of the
nano-banana image editor: the durable queue records (`BatchQueueRequest`,
`VideoBatchQueueRequest`), the IndexedDB-backed record store (`CacheService`),
the submission handlers (`handleQueueForBatch`, `handleVideoQueueForBatch`),
the on-demand and bulk polling logic of `QueuedRequestsPanel`
(`handleSelectRequest`, `handleRefreshAll`), and the canvas-load helpers
(`loadImageToCanvas`, `loadVideoToCanvas`).

The TypeScript source is embedded shallowly: records are Lean structures,
the key-value store is an association list per namespace, asynchronous remote
calls are an oracle (`RemoteEnv`) mapping names to `Except`-style outcomes,
and each event handler is a pure function from (inputs, oracle, store, canvas)
to the updated store/canvas together with the trace of remote calls it issued.
-/

/-! ### Unified queue status (types/index.ts `QueueStatus`) -/

inductive QueueStatus where
  | pending
  | submitted
  | processing
  | succeeded
  | failed
deriving DecidableEq, Repr

/-- The one-directional status order of the spec's state machine:
`pending → submitted → processing → succeeded/failed`, with `succeeded` and
`failed` terminal (absorbing).  `statusLe a b` means a record observed at `a`
may later be observed at `b`. -/
def statusLe : QueueStatus → QueueStatus → Bool
  | .pending, _ => true
  | .submitted, .pending => false
  | .submitted, _ => true
  | .processing, .pending => false
  | .processing, .submitted => false
  | .processing, _ => true
  | .succeeded, .succeeded => true
  | .succeeded, _ => false
  | .failed, .failed => true
  | .failed, _ => false

theorem statusLe_refl (a : QueueStatus) : statusLe a a = true := by
  cases a <;> rfl

theorem statusLe_trans (a b c : QueueStatus) (hab : statusLe a b = true)
    (hbc : statusLe b c = true) : statusLe a c = true := by
  cases a <;> cases b <;> cases c <;> simp_all [statusLe]

/-! ### JavaScript string semantics helpers

`extractBase64`, the `includes('base64,')` / `split('base64,')[1]` idiom, the
`state.replace('JOB_STATE_','').toLowerCase()` normalization and string
truthiness are modelled over `List Char` so that every definition reduces in
the kernel. -/

/-- Split `cs` at the first occurrence of `pat`, returning the part before and
the part after the occurrence.  `none` when `pat` does not occur. -/
def splitFirst (pat : List Char) : List Char → Option (List Char × List Char)
  | [] => if pat.isEmpty then some ([], []) else none
  | c :: cs =>
    if pat.isPrefixOf (c :: cs) then some ([], (c :: cs).drop pat.length)
    else
      match splitFirst pat cs with
      | some (pre, post) => some (c :: pre, post)
      | none => none

/-- The JavaScript `s.split(pat)[1]`: the segment between the first and second
occurrence of `pat` (or everything after the first occurrence when it is the
only one); `none` when `pat` does not occur at all. -/
def splitIndexOne (pat cs : List Char) : Option (List Char) :=
  match splitFirst pat cs with
  | none => none
  | some (_, post) =>
    match splitFirst pat post with
    | none => some post
    | some (pre2, _) => some pre2

/-- JavaScript `String.prototype.replace` with a plain-string pattern: replaces
only the first occurrence. -/
def replaceFirstChars (pat rep : List Char) : List Char → List Char
  | [] => []
  | c :: cs =>
    if pat.isPrefixOf (c :: cs) then rep ++ (c :: cs).drop pat.length
    else c :: replaceFirstChars pat rep cs

/-- JavaScript `trim()`. -/
def jsTrim (s : String) : String :=
  String.mk (((s.data.dropWhile Char.isWhitespace).reverse.dropWhile
    Char.isWhitespace).reverse)

/-- Truthiness of an optional JavaScript string (`undefined`, `null` and `""`
are falsy). -/
def truthyStr : Option String → Bool
  | none => false
  | some s => !(s == "")

/-- Truthiness of the JavaScript `xs?.length` idiom: falsy when the array is
absent or empty. -/
def truthyLen : Option (List String) → Bool
  | none => false
  | some l => !(l.length == 0)

/-- ```Job ${state.replace('JOB_STATE_', '').toLowerCase()}``` — the error
text the panel stores for a remote terminal failure state
(QueuedRequestsPanel.tsx lines 140 and 195). -/
def jobErrorText (state : String) : String :=
  "Job " ++ String.mk ((replaceFirstChars "JOB_STATE_".data [] state.data).map
    Char.toLower)

/-- `status.error || 'Video generation failed'` — JS `||` falls through on the
empty string. -/
def orElseStr (o : Option String) (d : String) : String :=
  match o with
  | none => d
  | some s => if s = "" then d else s

/-- `extractBase64` (part_003 line 870): `undefined` on a falsy input,
`dataUrl.split('base64,')[1]` when the marker occurs, the input itself
otherwise. -/
def extractBase64 (dataUrl : Option String) : Option String :=
  match dataUrl with
  | none => none
  | some u =>
    if u = "" then none
    else
      match splitIndexOne "base64,".data u.data with
      | some payload => some (String.mk payload)
      | none => some u

/-! ### Queue record data model (types/index.ts) -/

inductive ReqType where
  | generate
  | edit
deriving DecidableEq, Repr

/-- `BatchQueueRequest` of types/index.ts.  Floating-point `temperature` is
modelled as a rational; timestamps are naturals. -/
structure BatchQueueRequest where
  id : String
  type : ReqType
  prompt : String
  aspectRatio : Option String := none
  resolutionTier : Option String := none
  referenceImages : Option (List String) := none
  originalImage : Option String := none
  maskImage : Option String := none
  temperature : Option Rat := none
  seed : Option Nat := none
  variantCount : Option Nat := none
  batchJobName : Option String := none
  status : QueueStatus
  resultImages : Option (List String) := none
  createdAt : Nat
  submittedAt : Option Nat := none
  completedAt : Option Nat := none
  error : Option String := none
deriving DecidableEq, Repr

inductive VideoReqType where
  | videoGenerate
  | videoExtend
deriving DecidableEq, Repr

/-- `VideoBatchQueueRequest` of types/index.ts. -/
structure VideoBatchQueueRequest where
  id : String
  type : VideoReqType
  prompt : String
  negativePrompt : Option String := none
  aspectRatio : Option String := none
  resolution : Option String := none
  durationSeconds : Option Nat := none
  startFrameImage : Option String := none
  lastFrameImage : Option String := none
  referenceImages : Option (List String) := none
  sourceVideo : Option String := none
  seed : Option Nat := none
  operationName : Option String := none
  batchJobName : Option String := none
  status : QueueStatus
  progressPercent : Option Rat := none
  resultVideo : Option String := none
  thumbnailUrl : Option String := none
  createdAt : Nat
  submittedAt : Option Nat := none
  completedAt : Option Nat := none
  error : Option String := none
deriving DecidableEq, Repr

/-- `{ ...existing, ...updates }`: a field present in the partial replaces the
existing one, an absent field keeps it. -/
def ovr {α : Type} (u : Option α) (e : Option α) : Option α :=
  match u with
  | some v => some v
  | none => e

/-- The partial-update shapes `CacheService.updateQueuedRequest` receives from
the panel and the submission handlers. -/
structure BatchUpdate where
  status : Option QueueStatus := none
  batchJobName : Option String := none
  submittedAt : Option Nat := none
  resultImages : Option (List String) := none
  completedAt : Option Nat := none
  error : Option String := none
deriving DecidableEq, Repr

def applyBatchUpdate (r : BatchQueueRequest) (u : BatchUpdate) :
    BatchQueueRequest :=
  { r with
    status := u.status.getD r.status
    batchJobName := ovr u.batchJobName r.batchJobName
    submittedAt := ovr u.submittedAt r.submittedAt
    resultImages := ovr u.resultImages r.resultImages
    completedAt := ovr u.completedAt r.completedAt
    error := ovr u.error r.error }

structure VideoUpdate where
  status : Option QueueStatus := none
  operationName : Option String := none
  submittedAt : Option Nat := none
  resultVideo : Option String := none
  completedAt : Option Nat := none
  error : Option String := none
deriving DecidableEq, Repr

def applyVideoUpdate (r : VideoBatchQueueRequest) (u : VideoUpdate) :
    VideoBatchQueueRequest :=
  { r with
    status := u.status.getD r.status
    operationName := ovr u.operationName r.operationName
    submittedAt := ovr u.submittedAt r.submittedAt
    resultVideo := ovr u.resultVideo r.resultVideo
    completedAt := ovr u.completedAt r.completedAt
    error := ovr u.error r.error }

/-! ### The record store (cacheService.ts)

idb-keyval's `get`/`set`/`del`/`keys` over the `nano-banana-1.0-queue-` and
`nano-banana-1.0-video-queue-` key namespaces.  The two key prefixes cannot
collide (neither is a substring of a key of the other namespace), so the store
is one association list per namespace, keyed by record id. -/

def setKey {α : Type} (k : String) (v : α) :
    List (String × α) → List (String × α)
  | [] => [(k, v)]
  | (k', w) :: rest => if k' = k then (k, v) :: rest else (k', w) :: setKey k v rest

def getKey {α : Type} (k : String) : List (String × α) → Option α
  | [] => none
  | (k', v) :: rest => if k' = k then some v else getKey k rest

def delKey {α : Type} (k : String) : List (String × α) → List (String × α)
  | [] => []
  | (k', w) :: rest => if k' = k then delKey k rest else (k', w) :: delKey k rest

structure Store where
  queue : List (String × BatchQueueRequest)
  videoQueue : List (String × VideoBatchQueueRequest)
deriving DecidableEq

def saveQueuedRequest (r : BatchQueueRequest) (s : Store) : Store :=
  { s with queue := setKey r.id r s.queue }

def getQueuedRequest (id : String) (s : Store) : Option BatchQueueRequest :=
  getKey id s.queue

/-- Newest-first ordering used by `getAllQueuedRequests`:
`.sort((a, b) => b.createdAt - a.createdAt)`. -/
def imageDesc (a b : BatchQueueRequest) : Prop :=
  b.createdAt ≤ a.createdAt

instance : DecidableRel imageDesc := fun _ _ => Nat.decLe _ _

instance : IsTotal BatchQueueRequest imageDesc :=
  ⟨fun a b => Nat.le_total b.createdAt a.createdAt⟩

instance : IsTrans BatchQueueRequest imageDesc :=
  ⟨fun _ _ _ hab hbc => le_trans hbc hab⟩

def getAllQueuedRequests (s : Store) : List BatchQueueRequest :=
  List.insertionSort imageDesc (s.queue.map Prod.snd)

def updateQueuedRequest (id : String) (u : BatchUpdate) (s : Store) : Store :=
  match getQueuedRequest id s with
  | none => s
  | some existing =>
    { s with queue := setKey id (applyBatchUpdate existing u) s.queue }

def deleteQueuedRequest (id : String) (s : Store) : Store :=
  { s with queue := delKey id s.queue }

def saveVideoQueuedRequest (r : VideoBatchQueueRequest) (s : Store) : Store :=
  { s with videoQueue := setKey r.id r s.videoQueue }

def getVideoQueuedRequest (id : String) (s : Store) :
    Option VideoBatchQueueRequest :=
  getKey id s.videoQueue

def videoDesc (a b : VideoBatchQueueRequest) : Prop :=
  b.createdAt ≤ a.createdAt

instance : DecidableRel videoDesc := fun _ _ => Nat.decLe _ _

instance : IsTotal VideoBatchQueueRequest videoDesc :=
  ⟨fun a b => Nat.le_total b.createdAt a.createdAt⟩

instance : IsTrans VideoBatchQueueRequest videoDesc :=
  ⟨fun _ _ _ hab hbc => le_trans hbc hab⟩

def getAllVideoQueuedRequests (s : Store) : List VideoBatchQueueRequest :=
  List.insertionSort videoDesc (s.videoQueue.map Prod.snd)

def updateVideoQueuedRequest (id : String) (u : VideoUpdate) (s : Store) :
    Store :=
  match getVideoQueuedRequest id s with
  | none => s
  | some existing =>
    { s with videoQueue := setKey id (applyVideoUpdate existing u) s.videoQueue }

def deleteVideoQueuedRequest (id : String) (s : Store) : Store :=
  { s with videoQueue := delKey id s.videoQueue }

/-! ### Canvas state (useAppStore.ts) and the panel's load helpers -/

structure Canvas where
  canvasImage : Option String := none
  canvasImages : List String := []
  canvasImageIndex : Nat := 0
  canvasZoom : Rat := 1
  canvasPan : Rat × Rat := (0, 0)
  canvasVideo : Option String := none
  isVideoPlaying : Bool := false
  videoCurrentTime : Rat := 0
deriving DecidableEq

def setCanvasImage (url : Option String) (c : Canvas) : Canvas :=
  { c with
    canvasImage := url
    canvasImages := match url with | some u => [u] | none => []
    canvasImageIndex := 0 }

def setCanvasImages (urls : List String) (c : Canvas) : Canvas :=
  { c with
    canvasImages := urls
    canvasImage := urls.head?
    canvasImageIndex := 0 }

def setCanvasZoom (z : Rat) (c : Canvas) : Canvas := { c with canvasZoom := z }

def setCanvasPan (p : Rat × Rat) (c : Canvas) : Canvas :=
  { c with canvasPan := p }

def setCanvasVideo (url : Option String) (c : Canvas) : Canvas :=
  { c with canvasVideo := url, isVideoPlaying := false, videoCurrentTime := 0 }

/-- `loadImageToCanvas` (QueuedRequestsPanel.tsx lines 20-32): clear the video,
reset zoom and pan, then set the image(s).  The argument mirrors the
`string | string[]` union. -/
def loadImageToCanvas (base64Data : String ⊕ List String) (c : Canvas) :
    Canvas :=
  let c1 := setCanvasVideo none c
  let c2 := setCanvasZoom 1 c1
  let c3 := setCanvasPan (0, 0) c2
  match base64Data with
  | .inr datas =>
    setCanvasImages (datas.map (fun d => "data:image/png;base64," ++ d)) c3
  | .inl d => setCanvasImage (some ("data:image/png;base64," ++ d)) c3

/-- `loadVideoToCanvas` (QueuedRequestsPanel.tsx lines 35-39): clear the image,
set the video.  (It does not touch zoom or pan.) -/
def loadVideoToCanvas (base64Data : String) (c : Canvas) : Canvas :=
  setCanvasVideo (some ("data:video/mp4;base64," ++ base64Data))
    (setCanvasImage none c)

/-! ### The remote job client as an oracle (geminiService.ts)

Each remote call either throws (`Except.error`) — a transient network or
remote failure — or returns the response shape the panel destructures.  A call
handler is modelled as a pure function of the job/operation name. -/

/-- `VideoOperationStatus` of types/index.ts; the panel reads `state` and
`error`. -/
structure VideoOpStatus where
  done : Bool := true
  state : String
  error : Option String := none
  progress : Option Rat := none

structure RemoteEnv where
  batchStatus : String → Except Unit String
  batchResults : String → Except Unit (List String)
  videoOpStatus : String → Except Unit VideoOpStatus
  videoOpResult : String → Except Unit String

/-- The remote calls a handler issues, in order. -/
inductive RemoteCall where
  | batchStatusCall (name : String)
  | batchResultsCall (name : String)
  | videoOpStatusCall (name : String)
  | videoOpResultCall (name : String)
deriving DecidableEq, Repr

/-- Number of *status* queries (batch status / operation status) in a call
trace; result fetches are not status queries. -/
def statusQueryCount (calls : List RemoteCall) : Nat :=
  (calls.filter (fun c =>
    match c with
    | .batchStatusCall _ => true
    | .videoOpStatusCall _ => true
    | _ => false)).length

/-- The merged image/video queue entry the panel works with
(`type QueueItem` of QueuedRequestsPanel.tsx). -/
inductive QueueItem where
  | image (r : BatchQueueRequest)
  | video (r : VideoBatchQueueRequest)
deriving DecidableEq, Repr

def QueueItem.createdAt : QueueItem → Nat
  | .image r => r.createdAt
  | .video r => r.createdAt

def itemDesc (a b : QueueItem) : Prop :=
  b.createdAt ≤ a.createdAt

instance : DecidableRel itemDesc := fun _ _ => Nat.decLe _ _

instance : IsTotal QueueItem itemDesc :=
  ⟨fun a b => Nat.le_total b.createdAt a.createdAt⟩

instance : IsTrans QueueItem itemDesc :=
  ⟨fun _ _ _ hab hbc => le_trans hbc hab⟩

/-- `loadQueuedRequests` (QueuedRequestsPanel.tsx lines 41-54): read both
namespaces, merge, sort newest-first. -/
def loadQueuedRequests (s : Store) : List QueueItem :=
  List.insertionSort itemDesc
    ((getAllQueuedRequests s).map QueueItem.image ++
      (getAllVideoQueuedRequests s).map QueueItem.video)

/-! ### `handleSelectRequest` (QueuedRequestsPanel.tsx lines 60-148)

On-demand reconciliation.  The record is re-read fresh from the store; the
in-memory item only contributes its id and kind.  The result is the updated
store, the updated canvas, and the trace of remote calls issued (a call that
throws was still issued). -/

def handleSelectRequest (env : RemoteEnv) (now : Nat) (item : QueueItem)
    (s : Store) (c : Canvas) : Store × Canvas × List RemoteCall :=
  match item with
  | .video req =>
    match getVideoQueuedRequest req.id s with
    | none => (s, c, [])
    | some fresh =>
      if fresh.status = .succeeded ∧ truthyStr fresh.resultVideo then
        (s, loadVideoToCanvas (fresh.resultVideo.getD "") c, [])
      else if fresh.status = .processing ∧ truthyStr fresh.operationName then
        let name := fresh.operationName.getD ""
        match env.videoOpStatus name with
        | .error _ => (s, c, [.videoOpStatusCall name])
        | .ok st =>
          if st.state = "SUCCEEDED" then
            match env.videoOpResult name with
            | .error _ => (s, c, [.videoOpStatusCall name, .videoOpResultCall name])
            | .ok video =>
              (updateVideoQueuedRequest fresh.id
                { status := some .succeeded, resultVideo := some video,
                  completedAt := some now } s,
               loadVideoToCanvas video c,
               [.videoOpStatusCall name, .videoOpResultCall name])
          else if st.state = "FAILED" then
            (updateVideoQueuedRequest fresh.id
              { status := some .failed,
                error := some (orElseStr st.error "Video generation failed") } s,
             c, [.videoOpStatusCall name])
          else (s, c, [.videoOpStatusCall name])
      else (s, c, [])
  | .image req =>
    match getQueuedRequest req.id s with
    | none => (s, c, [])
    | some fresh =>
      if fresh.status = .succeeded ∧ truthyLen fresh.resultImages then
        (s, loadImageToCanvas (.inr (fresh.resultImages.getD [])) c, [])
      else if fresh.status = .submitted ∧ truthyStr fresh.batchJobName then
        let name := fresh.batchJobName.getD ""
        match env.batchStatus name with
        | .error _ => (s, c, [.batchStatusCall name])
        | .ok state =>
          if state = "JOB_STATE_SUCCEEDED" then
            match env.batchResults name with
            | .error _ => (s, c, [.batchStatusCall name, .batchResultsCall name])
            | .ok images =>
              (updateQueuedRequest fresh.id
                { status := some .succeeded, resultImages := some images,
                  completedAt := some now } s,
               if images.length > 0 then loadImageToCanvas (.inr images) c else c,
               [.batchStatusCall name, .batchResultsCall name])
          else if state = "JOB_STATE_FAILED" ∨ state = "JOB_STATE_CANCELLED" then
            (updateQueuedRequest fresh.id
              { status := some .failed, error := some (jobErrorText state) } s,
             c, [.batchStatusCall name])
          else (s, c, [.batchStatusCall name])
      else (s, c, [])

/-! ### `handleRefreshAll` (QueuedRequestsPanel.tsx lines 150-206)

Bulk refresh iterates the in-memory list (not a fresh store read); each
record's poll-and-persist is independent and individual failures are
tolerated. -/

def refreshStepImage (env : RemoteEnv) (now : Nat) (req : BatchQueueRequest)
    (s : Store) : Store :=
  if req.status = .submitted ∧ truthyStr req.batchJobName then
    let name := req.batchJobName.getD ""
    match env.batchStatus name with
    | .error _ => s
    | .ok state =>
      if state = "JOB_STATE_SUCCEEDED" then
        match env.batchResults name with
        | .error _ => s
        | .ok images =>
          updateQueuedRequest req.id
            { status := some .succeeded, resultImages := some images,
              completedAt := some now } s
      else if state = "JOB_STATE_FAILED" ∨ state = "JOB_STATE_CANCELLED" then
        updateQueuedRequest req.id
          { status := some .failed, error := some (jobErrorText state) } s
      else s
  else s

def refreshStepVideo (env : RemoteEnv) (now : Nat)
    (req : VideoBatchQueueRequest) (s : Store) : Store :=
  if (req.status = .submitted ∨ req.status = .processing) ∧
      truthyStr req.operationName then
    let name := req.operationName.getD ""
    match env.videoOpStatus name with
    | .error _ => s
    | .ok st =>
      if st.state = "SUCCEEDED" then
        match env.videoOpResult name with
        | .error _ => s
        | .ok video =>
          updateVideoQueuedRequest req.id
            { status := some .succeeded, resultVideo := some video,
              completedAt := some now } s
      else if st.state = "FAILED" then
        updateVideoQueuedRequest req.id
          { status := some .failed,
            error := some (orElseStr st.error "Video generation failed") } s
      else s
  else s

def refreshStep (env : RemoteEnv) (now : Nat) (item : QueueItem) (s : Store) :
    Store :=
  match item with
  | .image req => refreshStepImage env now req s
  | .video req => refreshStepVideo env now req s

def handleRefreshAll (env : RemoteEnv) (now : Nat) (mem : List QueueItem)
    (s : Store) : Store :=
  mem.foldl (fun s2 item => refreshStep env now item s2) s

/-! ### Submission handlers (part_003 lines 975-1163) -/

inductive ToolKind where
  | generate
  | edit
  | mask
deriving DecidableEq, Repr

/-- `img.includes('base64,')`. -/
def imageHasMarker (img : String) : Bool :=
  (splitFirst "base64,".data img.data).isSome

/-- `img.split('base64,')[1]` (guarded by `imageHasMarker` at every use). -/
def markerPayload (img : String) : String :=
  match splitIndexOne "base64,".data img.data with
  | some p => String.mk p
  | none => img

/-- Inputs of `handleQueueForBatch` drawn from the app store.  `maskImage` is
the already-rasterized brush mask (the canvas-DOM rasterization itself is out
of the modelled core). -/
structure QueueSubmitInput where
  id : String
  now : Nat
  selectedTool : ToolKind
  currentPrompt : String
  aspectRatio : Option String := none
  resolutionTier : Option String := none
  uploadedImages : List String := []
  editReferenceImages : List String := []
  canvasImage : Option String := none
  maskImage : Option String := none
  temperature : Option Rat := none
  seed : Option Nat := none
  variantCount : Nat := 1

/-- The `pending` record `handleQueueForBatch` constructs (part_003 lines
1035-1049). -/
def mkQueueRequest (inp : QueueSubmitInput) : BatchQueueRequest :=
  let isEditMode := inp.selectedTool = .edit ∨ inp.selectedTool = .mask
  let imageSource := if isEditMode then inp.editReferenceImages else inp.uploadedImages
  let referenceImages := (imageSource.filter imageHasMarker).map markerPayload
  { id := inp.id
    type := if inp.selectedTool = .generate then .generate else .edit
    prompt := inp.currentPrompt
    aspectRatio := inp.aspectRatio
    resolutionTier := inp.resolutionTier
    referenceImages := if referenceImages.length > 0 then some referenceImages else none
    originalImage :=
      match inp.canvasImage with
      | some ci => if imageHasMarker ci then some (markerPayload ci) else none
      | none => none
    maskImage := inp.maskImage
    temperature := inp.temperature
    seed := inp.seed
    variantCount := some inp.variantCount
    status := .pending
    createdAt := inp.now }

/-- Step 1 of the submission algorithm: persist the `pending` record
(`await CacheService.saveQueuedRequest(queueRequest)`), before any network
call. -/
def handleQueueForBatch_persist (inp : QueueSubmitInput) (s : Store) : Store :=
  saveQueuedRequest (mkQueueRequest inp) s

/-- Steps 3-5: the remote submission resolved with a batch name or threw;
persist the outcome. -/
def postSubmitImage (inp : QueueSubmitInput) (outcome : Except String String)
    (t : Nat) (s1 : Store) : Store :=
  match outcome with
  | .ok batchName =>
    updateQueuedRequest inp.id
      { status := some .submitted, batchJobName := some batchName,
        submittedAt := some t } s1
  | .error msg =>
    updateQueuedRequest inp.id
      { status := some .failed, error := some msg } s1

/-- `handleQueueForBatch` end to end: guard on a blank prompt, persist the
`pending` record, then submit and persist the outcome.  `outcome` is the
resolution of the remote submission call, which happens strictly after the
`pending` save. -/
def handleQueueForBatch (inp : QueueSubmitInput)
    (outcome : Except String String) (t : Nat) (s : Store) : Store :=
  if jsTrim inp.currentPrompt = "" then s
  else postSubmitImage inp outcome t (handleQueueForBatch_persist inp s)

/-! #### Video input state and `handleVideoQueueForBatch` -/

/-- The app-store fields the video submission reads (useAppStore.ts). -/
structure VideoInputState where
  videoStartFrame : Option String := none
  videoLastFrame : Option String := none
  videoSourceVideo : Option String := none
deriving DecidableEq, Repr

def initialVideoInputState : VideoInputState := {}

/-- The UI operations that mutate the video input fields.  The upload steps
carry the enabledness guards of the buttons that trigger them (part_003 lines
1457, 1506: frame uploads are disabled while a source video is set; line 1554:
the source upload is disabled while a frame is set), and
`handleVideoSourceUpload` (lines 958-973) additionally clears both frames.
The clear steps are the X buttons (lines 1442, 1491, 1539). -/
inductive VideoInputStep : VideoInputState → VideoInputState → Prop
  | uploadStartFrame (st : VideoInputState) (dataUrl : String)
      (henabled : st.videoSourceVideo = none) :
      VideoInputStep st { st with videoStartFrame := some dataUrl }
  | uploadLastFrame (st : VideoInputState) (dataUrl : String)
      (henabled : st.videoSourceVideo = none) :
      VideoInputStep st { st with videoLastFrame := some dataUrl }
  | uploadSourceVideo (st : VideoInputState) (dataUrl : String)
      (henabled : st.videoStartFrame = none ∧ st.videoLastFrame = none) :
      VideoInputStep st
        { videoStartFrame := none, videoLastFrame := none,
          videoSourceVideo := some dataUrl }
  | clearStartFrame (st : VideoInputState) :
      VideoInputStep st { st with videoStartFrame := none }
  | clearLastFrame (st : VideoInputState) :
      VideoInputStep st { st with videoLastFrame := none }
  | clearSourceVideo (st : VideoInputState) :
      VideoInputStep st { st with videoSourceVideo := none }

def VideoInputReachable (st : VideoInputState) : Prop :=
  Relation.ReflTransGen VideoInputStep initialVideoInputState st

structure VideoSubmitInput where
  id : String
  now : Nat
  currentPrompt : String
  videoNegativePrompt : String := ""
  videoAspectRatio : String := "16:9"
  videoResolution : String := "720p"
  videoDurationSetting : Nat := 4
  videoModel : String := "veo-3.1-generate-preview"
  seed : Option Nat := none

/-- The `pending` video record `handleVideoQueueForBatch` constructs
(part_003 lines 1116-1130). -/
def mkVideoQueueRequest (inp : VideoSubmitInput) (st : VideoInputState) :
    VideoBatchQueueRequest :=
  let startFrameBase64 := extractBase64 st.videoStartFrame
  let lastFrameBase64 := extractBase64 st.videoLastFrame
  let sourceVideoBase64 := extractBase64 st.videoSourceVideo
  { id := inp.id
    type := if truthyStr sourceVideoBase64 then .videoExtend else .videoGenerate
    prompt := inp.currentPrompt
    negativePrompt :=
      if inp.videoNegativePrompt = "" then none else some inp.videoNegativePrompt
    aspectRatio := some inp.videoAspectRatio
    resolution := some inp.videoResolution
    durationSeconds := some inp.videoDurationSetting
    startFrameImage := startFrameBase64
    lastFrameImage := lastFrameBase64
    sourceVideo := sourceVideoBase64
    seed := inp.seed
    status := .pending
    createdAt := inp.now }

/-- The `geminiService.generateVideo` request body (part_003 lines
1137-1148). -/
structure VideoGeneratePayload where
  prompt : String
  negativePrompt : Option String
  model : String
  aspectRatio : String
  resolution : String
  durationSeconds : Nat
  image : Option String
  lastFrame : Option String
  video : Option String
  seed : Option Nat
deriving DecidableEq, Repr

def mkVideoGeneratePayload (inp : VideoSubmitInput) (st : VideoInputState) :
    VideoGeneratePayload :=
  { prompt := inp.currentPrompt
    negativePrompt :=
      if inp.videoNegativePrompt = "" then none else some inp.videoNegativePrompt
    model := inp.videoModel
    aspectRatio := inp.videoAspectRatio
    resolution := inp.videoResolution
    durationSeconds := inp.videoDurationSetting
    image := extractBase64 st.videoStartFrame
    lastFrame := extractBase64 st.videoLastFrame
    video := extractBase64 st.videoSourceVideo
    seed := inp.seed }

def handleVideoQueueForBatch_persist (inp : VideoSubmitInput)
    (st : VideoInputState) (s : Store) : Store :=
  saveVideoQueuedRequest (mkVideoQueueRequest inp st) s

def postSubmitVideo (inp : VideoSubmitInput) (outcome : Except String String)
    (t : Nat) (s1 : Store) : Store :=
  match outcome with
  | .ok opName =>
    updateVideoQueuedRequest inp.id
      { status := some .submitted, operationName := some opName,
        submittedAt := some t } s1
  | .error msg =>
    updateVideoQueuedRequest inp.id
      { status := some .failed, error := some msg } s1

def handleVideoQueueForBatch (inp : VideoSubmitInput) (st : VideoInputState)
    (outcome : Except String String) (t : Nat) (s : Store) : Store :=
  if jsTrim inp.currentPrompt = "" then s
  else postSubmitVideo inp outcome t (handleVideoQueueForBatch_persist inp st s)

/-! ### The panel operations as one transition system -/

inductive PanelOp where
  | submitImage (inp : QueueSubmitInput) (outcome : Except String String) (t : Nat)
  | submitVideo (inp : VideoSubmitInput) (st : VideoInputState)
      (outcome : Except String String) (t : Nat)
  | selectReq (env : RemoteEnv) (now : Nat) (item : QueueItem)
  | refreshAllOp (env : RemoteEnv) (now : Nat) (mem : List QueueItem)
  | deleteReq (id : String) (isVideo : Bool)

def applyOp : PanelOp → Store × Canvas → Store × Canvas
  | .submitImage inp outcome t, (s, c) => (handleQueueForBatch inp outcome t s, c)
  | .submitVideo inp st outcome t, (s, c) =>
    (handleVideoQueueForBatch inp st outcome t s, c)
  | .selectReq env now item, (s, c) =>
    let r := handleSelectRequest env now item s c
    (r.1, r.2.1)
  | .refreshAllOp env now mem, (s, c) => (handleRefreshAll env now mem s, c)
  | .deleteReq id isVideo, (s, c) =>
    (if isVideo then deleteVideoQueuedRequest id s else deleteQueuedRequest id s, c)

/-! ### Store lemmas -/

theorem getKey_setKey_self {α : Type} (k : String) (v : α)
    (l : List (String × α)) : getKey k (setKey k v l) = some v := by
  induction l with
  | nil => simp [setKey, getKey]
  | cons p rest ih =>
    obtain ⟨k', w⟩ := p
    by_cases h : k' = k
    · simp [setKey, getKey, h]
    · simp [setKey, getKey, h, ih]

theorem getKey_setKey_ne {α : Type} (j k : String) (v : α)
    (l : List (String × α)) (h : j ≠ k) :
    getKey j (setKey k v l) = getKey j l := by
  induction l with
  | nil => simp [setKey, getKey, Ne.symm h]
  | cons p rest ih =>
    obtain ⟨k', w⟩ := p
    by_cases hk : k' = k
    · subst hk
      simp [setKey, getKey, Ne.symm h]
    · simp [setKey, getKey, hk, ih]

theorem getKey_delKey_self {α : Type} (k : String) (l : List (String × α)) :
    getKey k (delKey k l) = none := by
  induction l with
  | nil => simp [delKey, getKey]
  | cons p rest ih =>
    obtain ⟨k', w⟩ := p
    by_cases h : k' = k
    · simpa [delKey, h] using ih
    · simp [delKey, getKey, h, ih]

theorem getKey_delKey_ne {α : Type} (j k : String) (l : List (String × α))
    (h : j ≠ k) : getKey j (delKey k l) = getKey j l := by
  induction l with
  | nil => simp [delKey]
  | cons p rest ih =>
    obtain ⟨k', w⟩ := p
    by_cases hk : k' = k
    · subst hk
      simp [delKey, getKey, Ne.symm h, ih]
    · simp [delKey, getKey, hk, ih]

theorem delKey_delKey {α : Type} (k : String) (l : List (String × α)) :
    delKey k (delKey k l) = delKey k l := by
  induction l with
  | nil => rfl
  | cons p rest ih =>
    obtain ⟨k', w⟩ := p
    by_cases h : k' = k
    · simp [delKey, h, ih]
    · simp [delKey, h, ih]

/-- The panel-level view of `updateQueuedRequest`: the updated key maps to the
merged record, every other key is untouched, and an absent key stays a no-op. -/
theorem getQueuedRequest_update (j i : String) (u : BatchUpdate) (s : Store) :
    getQueuedRequest j (updateQueuedRequest i u s) =
      if j = i then (getQueuedRequest i s).map (fun r => applyBatchUpdate r u)
      else getQueuedRequest j s := by
  unfold updateQueuedRequest
  cases h : getQueuedRequest i s with
  | none =>
    by_cases hj : j = i
    · subst hj
      simp [h]
    · simp [hj]
  | some r =>
    by_cases hj : j = i
    · subst hj
      simp [h, getQueuedRequest, getKey_setKey_self]
    · simp [hj, getQueuedRequest, getKey_setKey_ne j i _ _ hj]

theorem getVideoQueuedRequest_update (j i : String) (u : VideoUpdate)
    (s : Store) :
    getVideoQueuedRequest j (updateVideoQueuedRequest i u s) =
      if j = i then
        (getVideoQueuedRequest i s).map (fun r => applyVideoUpdate r u)
      else getVideoQueuedRequest j s := by
  unfold updateVideoQueuedRequest
  cases h : getVideoQueuedRequest i s with
  | none =>
    by_cases hj : j = i
    · subst hj
      simp [h]
    · simp [hj]
  | some r =>
    by_cases hj : j = i
    · subst hj
      simp [h, getVideoQueuedRequest, getKey_setKey_self]
    · simp [hj, getVideoQueuedRequest, getKey_setKey_ne j i _ _ hj]

/-! Cross-namespace independence: image-store writes leave the video namespace
unchanged and vice versa. -/

theorem videoQueue_update (i : String) (u : BatchUpdate) (s : Store) :
    (updateQueuedRequest i u s).videoQueue = s.videoQueue := by
  unfold updateQueuedRequest
  cases getQueuedRequest i s <;> rfl

theorem queue_updateVideo (i : String) (u : VideoUpdate) (s : Store) :
    (updateVideoQueuedRequest i u s).queue = s.queue := by
  unfold updateVideoQueuedRequest
  cases getVideoQueuedRequest i s <;> rfl

theorem getVideo_of_queue_eq {s s' : Store}
    (h : s'.videoQueue = s.videoQueue) (id : String) :
    getVideoQueuedRequest id s' = getVideoQueuedRequest id s := by
  simp [getVideoQueuedRequest, h]

theorem getImage_of_queue_eq {s s' : Store} (h : s'.queue = s.queue)
    (id : String) : getQueuedRequest id s' = getQueuedRequest id s := by
  simp [getQueuedRequest, h]

/-! ### C6 — idempotent delete / no-op update on missing ids -/

/-- C6: for every id, `update` on an id not present in the store is a silent
no-op that stores nothing, `delete` is idempotent, and an `update` racing with
a `delete` never resurrects the deleted record — in both the image and the
video namespace. -/
theorem update_delete_idempotent :
    ∀ (id : String) (u : BatchUpdate) (uv : VideoUpdate) (s : Store),
      (getQueuedRequest id s = none → updateQueuedRequest id u s = s)
      ∧ deleteQueuedRequest id (deleteQueuedRequest id s) = deleteQueuedRequest id s
      ∧ updateQueuedRequest id u (deleteQueuedRequest id s) = deleteQueuedRequest id s
      ∧ (getVideoQueuedRequest id s = none → updateVideoQueuedRequest id uv s = s)
      ∧ deleteVideoQueuedRequest id (deleteVideoQueuedRequest id s) =
          deleteVideoQueuedRequest id s
      ∧ updateVideoQueuedRequest id uv (deleteVideoQueuedRequest id s) =
          deleteVideoQueuedRequest id s := by
  intro id u uv s
  refine ⟨fun h => ?_, ?_, ?_, fun h => ?_, ?_, ?_⟩
  · simp [updateQueuedRequest, h]
  · simp [deleteQueuedRequest, delKey_delKey]
  · have h : getQueuedRequest id (deleteQueuedRequest id s) = none := by
      simp [getQueuedRequest, deleteQueuedRequest, getKey_delKey_self]
    simp [updateQueuedRequest, h]
  · simp [updateVideoQueuedRequest, h]
  · simp [deleteVideoQueuedRequest, delKey_delKey]
  · have h : getVideoQueuedRequest id (deleteVideoQueuedRequest id s) = none := by
      simp [getVideoQueuedRequest, deleteVideoQueuedRequest, getKey_delKey_self]
    simp [updateVideoQueuedRequest, h]

theorem update_delete_idempotent_witness :
    updateQueuedRequest "x" {} { queue := [], videoQueue := [] } =
        { queue := [], videoQueue := [] }
      ∧ deleteQueuedRequest "x"
          (deleteQueuedRequest "x" { queue := [], videoQueue := [] }) =
        deleteQueuedRequest "x" { queue := [], videoQueue := [] } :=
  ⟨(update_delete_idempotent "x" {} {} { queue := [], videoQueue := [] }).1 rfl,
    (update_delete_idempotent "x" {} {} { queue := [], videoQueue := [] }).2.1⟩

/-! ### C1 — persist-before-network -/

/-- C1: for every submission (image or video), the `pending` record is
persisted before the remote submission call is issued: immediately after the
persisting save, a record with status `pending` is retrievable under the new
id, and the full handler is exactly the post-submission step applied to that
already-persisted store — whatever the (later) network outcome is. -/
theorem persist_before_network :
    ∀ (inp : QueueSubmitInput) (vinp : VideoSubmitInput)
      (vst : VideoInputState) (s : Store),
      (∃ r, getQueuedRequest inp.id (handleQueueForBatch_persist inp s) = some r
        ∧ r.status = .pending)
      ∧ (jsTrim inp.currentPrompt ≠ "" → ∀ outcome t,
          handleQueueForBatch inp outcome t s =
            postSubmitImage inp outcome t (handleQueueForBatch_persist inp s))
      ∧ (∃ r, getVideoQueuedRequest vinp.id
            (handleVideoQueueForBatch_persist vinp vst s) = some r
          ∧ r.status = .pending)
      ∧ (jsTrim vinp.currentPrompt ≠ "" → ∀ outcome t,
          handleVideoQueueForBatch vinp vst outcome t s =
            postSubmitVideo vinp outcome t
              (handleVideoQueueForBatch_persist vinp vst s)) := by
  intro inp vinp vst s
  refine ⟨⟨mkQueueRequest inp, ?_, rfl⟩, fun h outcome t => ?_,
    ⟨mkVideoQueueRequest vinp vst, ?_, rfl⟩, fun h outcome t => ?_⟩
  · have : (mkQueueRequest inp).id = inp.id := rfl
    simp [handleQueueForBatch_persist, saveQueuedRequest, getQueuedRequest, ←
      this, getKey_setKey_self]
  · simp [handleQueueForBatch, h]
  · have : (mkVideoQueueRequest vinp vst).id = vinp.id := rfl
    simp [handleVideoQueueForBatch_persist, saveVideoQueuedRequest,
      getVideoQueuedRequest, ← this, getKey_setKey_self]
  · simp [handleVideoQueueForBatch, h]

def sampleSubmitInput : QueueSubmitInput :=
  { id := "img-1", now := 5, selectedTool := .generate, currentPrompt := "a cat" }

def sampleVideoSubmitInput : VideoSubmitInput :=
  { id := "vid-1", now := 6, currentPrompt := "a dog" }

theorem persist_before_network_witness :
    (∃ r, getQueuedRequest "img-1"
        (handleQueueForBatch_persist sampleSubmitInput
          { queue := [], videoQueue := [] }) = some r ∧ r.status = .pending)
      ∧ handleQueueForBatch sampleSubmitInput (Except.ok "batch-7") 9
          { queue := [], videoQueue := [] } =
        postSubmitImage sampleSubmitInput (Except.ok "batch-7") 9
          (handleQueueForBatch_persist sampleSubmitInput
            { queue := [], videoQueue := [] }) :=
  ⟨(persist_before_network sampleSubmitInput sampleVideoSubmitInput
      initialVideoInputState { queue := [], videoQueue := [] }).1,
    (persist_before_network sampleSubmitInput sampleVideoSubmitInput
      initialVideoInputState { queue := [], videoQueue := [] }).2.1
      (by decide) (Except.ok "batch-7") 9⟩

/-! ### C5 — newest-first listing -/

/-- A list that is a permutation of `[a, b, c]` with strictly increasing
`createdAt` and is sorted newest-first must be exactly `[c, b, a]`. -/
theorem sorted_desc_perm_triple (xs : List BatchQueueRequest)
    (a b c : BatchQueueRequest) (hp : xs.Perm [a, b, c])
    (hs : xs.Sorted imageDesc) (hab : a.createdAt < b.createdAt)
    (hbc : b.createdAt < c.createdAt) : xs = [c, b, a] := by
  have hlen : xs.length = 3 := by
    have := hp.length_eq
    simpa using this
  obtain ⟨x, y, z, rfl⟩ := List.length_eq_three.mp hlen
  obtain ⟨hx, hyz'⟩ := List.pairwise_cons.mp hs
  obtain ⟨hy, _⟩ := List.pairwise_cons.mp hyz'
  have hxy : y.createdAt ≤ x.createdAt := hx y (by simp)
  have hxz : z.createdAt ≤ x.createdAt := hx z (by simp)
  have hyz : z.createdAt ≤ y.createdAt := hy z (by simp)
  have habc : [a, b, c].Perm [c, a, b] := by
    have h1 : [a, b, c].Perm [a, c, b] := ((List.Perm.swap c b []).cons a)
    exact h1.trans (List.Perm.swap c a [b])
  have hxmem : x = a ∨ x = b ∨ x = c := by
    simpa using hp.mem_iff.mp (show x ∈ [x, y, z] by simp)
  have hbmem : b = x ∨ b = y ∨ b = z := by
    simpa using hp.mem_iff.mpr (show b ∈ [a, b, c] by simp)
  have hcmem : c = x ∨ c = y ∨ c = z := by
    simpa using hp.mem_iff.mpr (show c ∈ [a, b, c] by simp)
  have hxc : x = c := by
    rcases hxmem with h | h | h
    · exfalso
      have h1 : x.createdAt = a.createdAt := by rw [h]
      rcases hbmem with hb | hb | hb
      · have h2 : b.createdAt = x.createdAt := by rw [hb]
        omega
      · have h2 : b.createdAt = y.createdAt := by rw [hb]
        omega
      · have h2 : b.createdAt = z.createdAt := by rw [hb]
        omega
    · exfalso
      have h1 : x.createdAt = b.createdAt := by rw [h]
      rcases hcmem with hc | hc | hc
      · have h2 : c.createdAt = x.createdAt := by rw [hc]
        omega
      · have h2 : c.createdAt = y.createdAt := by rw [hc]
        omega
      · have h2 : c.createdAt = z.createdAt := by rw [hc]
        omega
    · exact h
  have hyzab : [y, z].Perm [a, b] := by
    rw [hxc] at hp
    exact (hp.trans habc).cons_inv
  have hymem : y = a ∨ y = b := by
    simpa using hyzab.mem_iff.mp (show y ∈ [y, z] by simp)
  have hyb : y = b := by
    rcases hymem with h | h
    · exfalso
      have hz : [z].Perm [b] := by
        rw [h] at hyzab
        exact hyzab.cons_inv
      have hzb : z = b := by
        simpa using hz.mem_iff.mp (show z ∈ [z] by simp)
      have h1 : y.createdAt = a.createdAt := by rw [h]
      have h2 : z.createdAt = b.createdAt := by rw [hzb]
      omega
    · exact h
  have hza : z = a := by
    rw [hyb] at hyzab
    have hz : [z].Perm [a] := (hyzab.trans (List.Perm.swap b a [])).cons_inv
    simpa using hz.mem_iff.mp (show z ∈ [z] by simp)
  rw [hxc, hyb, hza]

/-- C5: every listing is the full namespace contents sorted by `createdAt`
descending (newest first), for the image namespace, the video namespace and
the merged queue view; in particular three records with increasing timestamps
`t1 < t2 < t3` are always listed `[t3, t2, t1]`, regardless of the insertion
order of the underlying store. -/
theorem listAll_newest_first :
    (∀ s : Store,
      (getAllQueuedRequests s).Sorted imageDesc
      ∧ (getAllQueuedRequests s).Perm (s.queue.map Prod.snd)
      ∧ (getAllVideoQueuedRequests s).Sorted videoDesc
      ∧ (getAllVideoQueuedRequests s).Perm (s.videoQueue.map Prod.snd)
      ∧ (loadQueuedRequests s).Sorted itemDesc
      ∧ (loadQueuedRequests s).Perm
          ((s.queue.map Prod.snd).map QueueItem.image ++
            (s.videoQueue.map Prod.snd).map QueueItem.video))
    ∧ (∀ (q : List (String × BatchQueueRequest))
        (vq : List (String × VideoBatchQueueRequest))
        (a b c : BatchQueueRequest),
        (q.map Prod.snd).Perm [a, b, c] →
        a.createdAt < b.createdAt → b.createdAt < c.createdAt →
        getAllQueuedRequests { queue := q, videoQueue := vq } = [c, b, a]) := by
  constructor
  · intro s
    refine ⟨List.sorted_insertionSort imageDesc _,
      List.perm_insertionSort imageDesc _,
      List.sorted_insertionSort videoDesc _,
      List.perm_insertionSort videoDesc _,
      List.sorted_insertionSort itemDesc _, ?_⟩
    have h1 : (loadQueuedRequests s).Perm
        ((getAllQueuedRequests s).map QueueItem.image ++
          (getAllVideoQueuedRequests s).map QueueItem.video) :=
      List.perm_insertionSort itemDesc _
    exact h1.trans
      (((List.perm_insertionSort imageDesc _).map QueueItem.image).append
        ((List.perm_insertionSort videoDesc _).map QueueItem.video))
  · intro q vq a b c hperm hab hbc
    exact sorted_desc_perm_triple _ a b c
      ((List.perm_insertionSort imageDesc _).trans hperm)
      (List.sorted_insertionSort imageDesc _) hab hbc

def reqAt (i : String) (t : Nat) : BatchQueueRequest :=
  { id := i, type := .generate, prompt := "p", status := .pending, createdAt := t }

theorem listAll_newest_first_witness :
    getAllQueuedRequests
        { queue := [("b", reqAt "b" 20), ("a", reqAt "a" 10), ("c", reqAt "c" 30)],
          videoQueue := [] } =
      [reqAt "c" 30, reqAt "b" 20, reqAt "a" 10] :=
  listAll_newest_first.2
    [("b", reqAt "b" 20), ("a", reqAt "a" 10), ("c", reqAt "c" 30)] []
    (reqAt "a" 10) (reqAt "b" 20) (reqAt "c" 30)
    (by decide) (by decide) (by decide)

/-! ### C10 — canvas-load reset behaviour -/

def zoomedCanvas : Canvas :=
  { canvasImage := some "old", canvasImages := ["old"], canvasZoom := 2,
    canvasPan := (3, 4) }

/-- C10 counterexample: the claim states that `loadVideo` also resets zoom and
pan to their defaults, but `loadVideoToCanvas` only clears the image and sets
the video — loading a video into a canvas zoomed at 2 and panned to (3, 4)
leaves zoom 2 and pan (3, 4). -/
theorem loadVideo_keeps_zoom_pan_cex :
    (loadVideoToCanvas "v" zoomedCanvas).canvasImage = none
    ∧ (loadVideoToCanvas "v" zoomedCanvas).canvasVideo =
        some "data:video/mp4;base64,v"
    ∧ (loadVideoToCanvas "v" zoomedCanvas).canvasZoom = 2
    ∧ (loadVideoToCanvas "v" zoomedCanvas).canvasPan = (3, 4)
    ∧ ¬((loadVideoToCanvas "v" zoomedCanvas).canvasZoom = 1
        ∧ (loadVideoToCanvas "v" zoomedCanvas).canvasPan = (0, 0)) := by
  refine ⟨rfl, rfl, rfl, rfl, ?_⟩
  intro h
  have h1 := h.1
  simp [loadVideoToCanvas, setCanvasVideo, setCanvasImage, zoomedCanvas] at h1

/-- C10 amended: `loadImages` clears the video and resets zoom to 1 and pan to
(0, 0) before setting the image(s); `loadVideo` clears the image and sets the
video but leaves zoom and pan exactly as they were. -/
theorem canvas_load_reset_behaviour :
    ∀ (d : String ⊕ List String) (v : String) (c : Canvas),
      (loadImageToCanvas d c).canvasVideo = none
      ∧ (loadImageToCanvas d c).canvasZoom = 1
      ∧ (loadImageToCanvas d c).canvasPan = (0, 0)
      ∧ (loadVideoToCanvas v c).canvasImage = none
      ∧ (loadVideoToCanvas v c).canvasVideo =
          some ("data:video/mp4;base64," ++ v)
      ∧ (loadVideoToCanvas v c).canvasZoom = c.canvasZoom
      ∧ (loadVideoToCanvas v c).canvasPan = c.canvasPan := by
  intro d v c
  cases d <;>
    simp [loadImageToCanvas, loadVideoToCanvas, setCanvasImage,
      setCanvasImages, setCanvasZoom, setCanvasPan, setCanvasVideo]

/-! ### C7 — mutual exclusivity of the video modes -/

/-- The invariant: a set source video excludes both frame images. -/
def mutuallyExclusiveModes (st : VideoInputState) : Prop :=
  st.videoSourceVideo.isSome = true →
    st.videoStartFrame = none ∧ st.videoLastFrame = none

theorem videoInputStep_preserves_me {st st' : VideoInputState}
    (h : VideoInputStep st st') (hm : mutuallyExclusiveModes st) :
    mutuallyExclusiveModes st' := by
  cases h with
  | uploadStartFrame dataUrl henabled =>
    intro hsome
    simp [henabled] at hsome
  | uploadLastFrame dataUrl henabled =>
    intro hsome
    simp [henabled] at hsome
  | uploadSourceVideo dataUrl henabled =>
    intro _
    exact ⟨rfl, rfl⟩
  | clearStartFrame =>
    intro hsome
    exact ⟨rfl, (hm hsome).2⟩
  | clearLastFrame =>
    intro hsome
    exact ⟨(hm hsome).1, rfl⟩
  | clearSourceVideo =>
    intro hsome
    simp at hsome

theorem reachable_me {st : VideoInputState} (h : VideoInputReachable st) :
    mutuallyExclusiveModes st := by
  induction h with
  | refl =>
    intro hsome
    simp [initialVideoInputState] at hsome
  | tail _ hstep ih => exact videoInputStep_preserves_me hstep ih

theorem extractBase64_none : extractBase64 none = none := rfl

theorem extractBase64_isSome {o : Option String}
    (h : (extractBase64 o).isSome = true) : o.isSome = true := by
  cases o with
  | none => simp [extractBase64] at h
  | some u => rfl

/-- C7: in every video-input state the UI can actually reach, the queue record
built by `handleVideoQueueForBatch` and the remote start-video payload never
carry a source video together with a start or last frame — frame uploads are
disabled while a source video is set, and uploading a source video clears both
frames. -/
theorem video_modes_mutually_exclusive :
    ∀ (st : VideoInputState), VideoInputReachable st →
      ∀ (inp : VideoSubmitInput),
        ¬((mkVideoQueueRequest inp st).sourceVideo.isSome = true
          ∧ ((mkVideoQueueRequest inp st).startFrameImage.isSome = true
            ∨ (mkVideoQueueRequest inp st).lastFrameImage.isSome = true))
        ∧ ¬((mkVideoGeneratePayload inp st).video.isSome = true
          ∧ ((mkVideoGeneratePayload inp st).image.isSome = true
            ∨ (mkVideoGeneratePayload inp st).lastFrame.isSome = true)) := by
  intro st hreach inp
  have hm := reachable_me hreach
  have hrec : (mkVideoQueueRequest inp st).sourceVideo =
      extractBase64 st.videoSourceVideo := rfl
  have hs : (mkVideoQueueRequest inp st).startFrameImage =
      extractBase64 st.videoStartFrame := rfl
  have hl : (mkVideoQueueRequest inp st).lastFrameImage =
      extractBase64 st.videoLastFrame := rfl
  constructor
  · rintro ⟨hsome, hframe⟩
    rw [hrec] at hsome
    obtain ⟨h1, h2⟩ := hm (extractBase64_isSome hsome)
    rcases hframe with hf | hf
    · rw [hs, h1] at hf
      simp [extractBase64] at hf
    · rw [hl, h2] at hf
      simp [extractBase64] at hf
  · rintro ⟨hsome, hframe⟩
    have hv : (mkVideoGeneratePayload inp st).video =
        extractBase64 st.videoSourceVideo := rfl
    rw [hv] at hsome
    obtain ⟨h1, h2⟩ := hm (extractBase64_isSome hsome)
    rcases hframe with hf | hf
    · have : (mkVideoGeneratePayload inp st).image =
          extractBase64 st.videoStartFrame := rfl
      rw [this, h1] at hf
      simp [extractBase64] at hf
    · have : (mkVideoGeneratePayload inp st).lastFrame =
          extractBase64 st.videoLastFrame := rfl
      rw [this, h2] at hf
      simp [extractBase64] at hf

def extensionState : VideoInputState :=
  { videoStartFrame := none, videoLastFrame := none,
    videoSourceVideo := some "data:video/mp4;base64,QUFB" }

theorem video_modes_mutually_exclusive_witness :
    ¬((mkVideoQueueRequest sampleVideoSubmitInput extensionState).sourceVideo.isSome = true
      ∧ ((mkVideoQueueRequest sampleVideoSubmitInput extensionState).startFrameImage.isSome = true
        ∨ (mkVideoQueueRequest sampleVideoSubmitInput extensionState).lastFrameImage.isSome = true)) :=
  (video_modes_mutually_exclusive extensionState
    (Relation.ReflTransGen.single
      (VideoInputStep.uploadSourceVideo initialVideoInputState
        "data:video/mp4;base64,QUFB" ⟨rfl, rfl⟩))
    sampleVideoSubmitInput).1

/-! ### C9 — status queries issued by on-demand selection -/

def canvasInit : Canvas := {}

/-- The condition under which `handleSelectRequest` issues a status query:
an image record freshly read as `submitted` with a batch-job name, or a video
record freshly read as `processing` with an operation name. -/
def selectPolls (item : QueueItem) (s : Store) : Bool :=
  match item with
  | .image req =>
    match getQueuedRequest req.id s with
    | some fresh => decide (fresh.status = .submitted) && truthyStr fresh.batchJobName
    | none => false
  | .video req =>
    match getVideoQueuedRequest req.id s with
    | some fresh => decide (fresh.status = .processing) && truthyStr fresh.operationName
    | none => false

def selectSubmittedVideoRec : VideoBatchQueueRequest :=
  { id := "v1", type := .videoGenerate, prompt := "p", status := .submitted,
    operationName := some "op1", createdAt := 5 }

def selectCexStore : Store :=
  { queue := [], videoQueue := [("v1", selectSubmittedVideoRec)] }

def runningEnv : RemoteEnv :=
  { batchStatus := fun _ => .ok "JOB_STATE_RUNNING"
    batchResults := fun _ => .ok ["img"]
    videoOpStatus := fun _ => .ok { state := "RUNNING" }
    videoOpResult := fun _ => .ok "vid" }

/-- C9 counterexample: the claim requires a status query for a video record in
status `submitted` with a remote identifier, but on-demand selection of such a
record issues no remote call at all — the video poll branch fires only on
`processing`. -/
theorem select_submitted_video_no_query_cex :
    selectSubmittedVideoRec.status = .submitted
    ∧ selectSubmittedVideoRec.operationName.isSome = true
    ∧ getVideoQueuedRequest "v1" selectCexStore = some selectSubmittedVideoRec
    ∧ statusQueryCount (handleSelectRequest runningEnv 0
        (QueueItem.video selectSubmittedVideoRec) selectCexStore canvasInit).2.2 = 0
    ∧ (0 : Nat) ≠ 1 := by
  refine ⟨rfl, rfl, rfl, ?_, by decide⟩
  rfl

/-- C9 amended: during on-demand reconciliation exactly one remote status
query is issued when the freshly re-read record is an image record in status
`submitted` with a batch-job name, or a video record in status `processing`
(not `submitted`) with an operation name; in every other case no status query
is issued. -/
theorem select_status_query_exactly_one :
    ∀ (env : RemoteEnv) (now : Nat) (item : QueueItem) (s : Store) (c : Canvas),
      statusQueryCount (handleSelectRequest env now item s c).2.2 =
        if selectPolls item s then 1 else 0 := by
  intro env now item s c
  match item with
  | .video req =>
    cases h : getVideoQueuedRequest req.id s with
    | none => simp [handleSelectRequest, selectPolls, h, statusQueryCount]
    | some fresh =>
      simp only [handleSelectRequest, selectPolls, h]
      by_cases h1 : fresh.status = .succeeded ∧ truthyStr fresh.resultVideo = true
      · have h2 : ¬((decide (fresh.status = .processing) &&
            truthyStr fresh.operationName) = true) := by
          simp [h1.1]
        rw [if_pos h1, if_neg h2]
        rfl
      · rw [if_neg h1]
        by_cases h3 : fresh.status = .processing ∧ truthyStr fresh.operationName = true
        · have h4 : (decide (fresh.status = .processing) &&
              truthyStr fresh.operationName) = true := by
            simp [h3.1, h3.2]
          rw [if_pos h3, if_pos h4]
          split <;> first
          | rfl
          | (split <;> first
              | rfl
              | (split <;> rfl))
        · have h4 : ¬((decide (fresh.status = .processing) &&
              truthyStr fresh.operationName) = true) := by
            intro hcon
            simp at hcon
            exact h3 ⟨hcon.1, hcon.2⟩
          rw [if_neg h3, if_neg h4]
          rfl
  | .image req =>
    cases h : getQueuedRequest req.id s with
    | none => simp [handleSelectRequest, selectPolls, h, statusQueryCount]
    | some fresh =>
      simp only [handleSelectRequest, selectPolls, h]
      by_cases h1 : fresh.status = .succeeded ∧ truthyLen fresh.resultImages = true
      · have h2 : ¬((decide (fresh.status = .submitted) &&
            truthyStr fresh.batchJobName) = true) := by
          simp [h1.1]
        rw [if_pos h1, if_neg h2]
        rfl
      · rw [if_neg h1]
        by_cases h3 : fresh.status = .submitted ∧ truthyStr fresh.batchJobName = true
        · have h4 : (decide (fresh.status = .submitted) &&
              truthyStr fresh.batchJobName) = true := by
            simp [h3.1, h3.2]
          rw [if_pos h3, if_pos h4]
          split <;> first
          | rfl
          | (split <;> first
              | rfl
              | (split <;> rfl))
        · have h4 : ¬((decide (fresh.status = .submitted) &&
              truthyStr fresh.batchJobName) = true) := by
            intro hcon
            simp at hcon
            exact h3 ⟨hcon.1, hcon.2⟩
          rw [if_neg h3, if_neg h4]
          rfl

/-! ### C8 — terminal remote failure normalization -/

def c8Rec : BatchQueueRequest :=
  { id := "r8", type := .generate, prompt := "p", status := .submitted,
    batchJobName := some "b8", createdAt := 1 }

def c8Store : Store := { queue := [("r8", c8Rec)], videoQueue := [] }

def c8Env : RemoteEnv :=
  { batchStatus := fun _ => .ok "JOB_STATE_CANCELLED"
    batchResults := fun _ => .ok ["img"]
    videoOpStatus := fun _ => .ok { state := "RUNNING" }
    videoOpResult := fun _ => .ok "vid" }

/-- C8 counterexample: a poll of a `submitted` record that returns
`JOB_STATE_CANCELLED` marks the record `failed`, but its `error` is the string
"Job cancelled" — the code prepends "Job " to the lower-cased reason — not
"cancelled" as the claim states. -/
theorem cancelled_error_text_cex :
    getQueuedRequest "r8"
        (handleSelectRequest c8Env 3 (QueueItem.image c8Rec) c8Store canvasInit).1 =
      some { c8Rec with status := .failed, error := some "Job cancelled" }
    ∧ some "Job cancelled" ≠ some "cancelled" := by
  exact ⟨rfl, by decide⟩

/-- C8 amended: a poll of a `submitted` image record that returns a terminal
failure state (`JOB_STATE_FAILED` or `JOB_STATE_CANCELLED`) — on selection or
on bulk refresh — marks the record `failed` with `error` set to "Job "
followed by the lower-cased state name stripped of its `JOB_STATE_` prefix;
in particular `JOB_STATE_CANCELLED` yields `error = "Job cancelled"` and
`JOB_STATE_FAILED` yields `error = "Job failed"`. -/
theorem terminal_failure_error_normalized :
    ∀ (env : RemoteEnv) (now : Nat) (s : Store) (c : Canvas)
      (req fresh : BatchQueueRequest) (name state : String),
      getQueuedRequest req.id s = some fresh →
      fresh.id = req.id →
      fresh.status = .submitted →
      fresh.batchJobName = some name → name ≠ "" →
      env.batchStatus name = .ok state →
      (state = "JOB_STATE_FAILED" ∨ state = "JOB_STATE_CANCELLED") →
      (getQueuedRequest req.id
          (handleSelectRequest env now (QueueItem.image req) s c).1 =
        some (applyBatchUpdate fresh
          { status := some .failed, error := some (jobErrorText state) })
        ∧ refreshStepImage env now fresh s =
            updateQueuedRequest fresh.id
              { status := some .failed, error := some (jobErrorText state) } s)
      ∧ jobErrorText "JOB_STATE_CANCELLED" = "Job cancelled"
      ∧ jobErrorText "JOB_STATE_FAILED" = "Job failed" := by
  intro env now s c req fresh name state hget hid hstatus hname hname' henv hterm
  have hnot1 : ¬(fresh.status = QueueStatus.succeeded ∧
      truthyLen fresh.resultImages = true) := by
    intro hcon
    rw [hstatus] at hcon
    exact absurd hcon.1 (by decide)
  have htr : truthyStr fresh.batchJobName = true := by
    simp [truthyStr, hname, hname']
  have hcond : fresh.status = QueueStatus.submitted ∧
      truthyStr fresh.batchJobName = true := ⟨hstatus, htr⟩
  have hgetd : fresh.batchJobName.getD "" = name := by
    simp [hname]
  have hnotsucc : state ≠ "JOB_STATE_SUCCEEDED" := by
    rcases hterm with h | h <;> subst h <;> decide
  have hstore : (handleSelectRequest env now (QueueItem.image req) s c).1 =
      updateQueuedRequest fresh.id
        { status := some .failed, error := some (jobErrorText state) } s := by
    simp only [handleSelectRequest, hget]
    rw [if_neg hnot1, if_pos hcond, hgetd]
    simp only [henv]
    rw [if_neg hnotsucc, if_pos hterm]
  have hrefresh : refreshStepImage env now fresh s =
      updateQueuedRequest fresh.id
        { status := some .failed, error := some (jobErrorText state) } s := by
    simp only [refreshStepImage]
    rw [if_pos hcond, hgetd]
    simp only [henv]
    rw [if_neg hnotsucc, if_pos hterm]
  refine ⟨⟨?_, hrefresh⟩, by decide, by decide⟩
  rw [hstore, hid, getQueuedRequest_update]
  rw [if_pos rfl, hget]
  rfl

theorem terminal_failure_error_normalized_witness :
    getQueuedRequest "r8"
        (handleSelectRequest c8Env 3 (QueueItem.image c8Rec) c8Store canvasInit).1 =
      some (applyBatchUpdate c8Rec
        { status := some .failed,
          error := some (jobErrorText "JOB_STATE_CANCELLED") })
    ∧ jobErrorText "JOB_STATE_CANCELLED" = "Job cancelled" :=
  ⟨((terminal_failure_error_normalized c8Env 3 c8Store canvasInit c8Rec c8Rec
      "b8" "JOB_STATE_CANCELLED" rfl rfl rfl rfl (by decide) rfl
      (Or.inr rfl)).1).1,
    ((terminal_failure_error_normalized c8Env 3 c8Store canvasInit c8Rec c8Rec
      "b8" "JOB_STATE_CANCELLED" rfl rfl rfl rfl (by decide) rfl
      (Or.inr rfl)).2).1⟩

/-! ### C4 — transient poll failure leaves the record unchanged -/

/-- The status query for this batch name throws, or it reports success and the
subsequent result fetch throws. -/
def imageThrowAt (env : RemoteEnv) (name : String) : Prop :=
  (∃ e, env.batchStatus name = .error e)
  ∨ (env.batchStatus name = .ok "JOB_STATE_SUCCEEDED"
      ∧ ∃ e, env.batchResults name = .error e)

def videoThrowAt (env : RemoteEnv) (name : String) : Prop :=
  (∃ e, env.videoOpStatus name = .error e)
  ∨ (∃ st, env.videoOpStatus name = .ok st ∧ st.state = "SUCCEEDED"
      ∧ ∃ e, env.videoOpResult name = .error e)

/-- C4: when the status query (or the subsequent result fetch) of a poll
throws, the persisted store is left completely unchanged — no status change
and no error recorded — on every polling path: image selection, video
selection, image bulk-refresh step and video bulk-refresh step.  Only a
definitive remote verdict ever moves a polled record. -/
theorem transient_poll_error_unchanged :
    ∀ (env : RemoteEnv) (now : Nat) (s : Store) (c : Canvas),
      (∀ (req fresh : BatchQueueRequest) (name : String),
        getQueuedRequest req.id s = some fresh →
        fresh.batchJobName = some name →
        imageThrowAt env name →
        (handleSelectRequest env now (QueueItem.image req) s c).1 = s)
      ∧ (∀ (req : BatchQueueRequest) (name : String),
          req.batchJobName = some name →
          imageThrowAt env name →
          refreshStepImage env now req s = s)
      ∧ (∀ (req fresh : VideoBatchQueueRequest) (name : String),
          getVideoQueuedRequest req.id s = some fresh →
          fresh.operationName = some name →
          videoThrowAt env name →
          (handleSelectRequest env now (QueueItem.video req) s c).1 = s)
      ∧ (∀ (req : VideoBatchQueueRequest) (name : String),
          req.operationName = some name →
          videoThrowAt env name →
          refreshStepVideo env now req s = s) := by
  intro env now s c
  refine ⟨?_, ?_, ?_, ?_⟩
  · intro req fresh name hget hname hthrow
    simp only [handleSelectRequest, hget]
    by_cases h1 : fresh.status = QueueStatus.succeeded ∧
        truthyLen fresh.resultImages = true
    · rw [if_pos h1]
    · rw [if_neg h1]
      by_cases h2 : fresh.status = QueueStatus.submitted ∧
          truthyStr fresh.batchJobName = true
      · rw [if_pos h2]
        have hgetd : fresh.batchJobName.getD "" = name := by simp [hname]
        rw [hgetd]
        rcases hthrow with ⟨e, he⟩ | ⟨hok, e, he⟩
        · simp only [he]
        · simp [hok, he]
      · rw [if_neg h2]
  · intro req name hname hthrow
    simp only [refreshStepImage]
    by_cases h2 : req.status = QueueStatus.submitted ∧
        truthyStr req.batchJobName = true
    · rw [if_pos h2]
      have hgetd : req.batchJobName.getD "" = name := by simp [hname]
      rw [hgetd]
      rcases hthrow with ⟨e, he⟩ | ⟨hok, e, he⟩
      · simp only [he]
      · simp [hok, he]
    · rw [if_neg h2]
  · intro req fresh name hget hname hthrow
    simp only [handleSelectRequest, hget]
    by_cases h1 : fresh.status = QueueStatus.succeeded ∧
        truthyStr fresh.resultVideo = true
    · rw [if_pos h1]
    · rw [if_neg h1]
      by_cases h2 : fresh.status = QueueStatus.processing ∧
          truthyStr fresh.operationName = true
      · rw [if_pos h2]
        have hgetd : fresh.operationName.getD "" = name := by simp [hname]
        rw [hgetd]
        rcases hthrow with ⟨e, he⟩ | ⟨st, hok, hstate, e, he⟩
        · simp only [he]
        · simp [hok, hstate, he]
      · rw [if_neg h2]
  · intro req name hname hthrow
    simp only [refreshStepVideo]
    by_cases h2 : (req.status = QueueStatus.submitted ∨
        req.status = QueueStatus.processing) ∧ truthyStr req.operationName = true
    · rw [if_pos h2]
      have hgetd : req.operationName.getD "" = name := by simp [hname]
      rw [hgetd]
      rcases hthrow with ⟨e, he⟩ | ⟨st, hok, hstate, e, he⟩
      · simp only [he]
      · simp [hok, hstate, he]
    · rw [if_neg h2]

def throwingEnv : RemoteEnv :=
  { batchStatus := fun _ => .error ()
    batchResults := fun _ => .error ()
    videoOpStatus := fun _ => .error ()
    videoOpResult := fun _ => .error () }

theorem transient_poll_error_unchanged_witness :
    (handleSelectRequest throwingEnv 4 (QueueItem.image c8Rec) c8Store
      canvasInit).1 = c8Store :=
  (transient_poll_error_unchanged throwingEnv 4 c8Store canvasInit).1 c8Rec
    c8Rec "b8" rfl rfl (Or.inl ⟨(), rfl⟩)

/-! ### Infrastructure for the status-monotonicity and record-invariant
results (C2, C3)

The store invariant that every record sits under its own id (every persisting
write in cacheService.ts uses the record's `id` as the key), the consistency
of the remote oracle with locally recorded terminal verdicts (a remote batch
job or operation does not leave a terminal state), and effect-shape lemmas
describing exactly which store writes the polling paths perform. -/

def KeyedById (s : Store) : Prop :=
  (∀ k r, getQueuedRequest k s = some r → r.id = k)
  ∧ (∀ k r, getVideoQueuedRequest k s = some r → r.id = k)

/-- Remote terminal verdicts are stable and agree with locally persisted
terminal statuses: a record persisted as `succeeded` cannot poll as a remote
terminal failure, and one persisted as `failed` cannot poll as remote
success. -/
def EnvConsistent (env : RemoteEnv) (s : Store) : Prop :=
  (∀ k r nm, getQueuedRequest k s = some r → r.batchJobName = some nm →
    (r.status = .succeeded → ∀ st, env.batchStatus nm = .ok st →
      st ≠ "JOB_STATE_FAILED" ∧ st ≠ "JOB_STATE_CANCELLED")
    ∧ (r.status = .failed → ∀ st, env.batchStatus nm = .ok st →
        st ≠ "JOB_STATE_SUCCEEDED"))
  ∧ (∀ k r nm, getVideoQueuedRequest k s = some r → r.operationName = some nm →
    (r.status = .succeeded → ∀ st, env.videoOpStatus nm = .ok st →
      st.state ≠ "FAILED")
    ∧ (r.status = .failed → ∀ st, env.videoOpStatus nm = .ok st →
        st.state ≠ "SUCCEEDED"))

/-- The in-memory snapshot used by bulk refresh carries the same remote
identifiers as the current store contents (identifiers are written once at
submission time and never changed afterwards). -/
def MemNames (mem : List QueueItem) (s : Store) : Prop :=
  (∀ r : BatchQueueRequest, QueueItem.image r ∈ mem →
    ∀ r', getQueuedRequest r.id s = some r' → r'.batchJobName = r.batchJobName)
  ∧ (∀ r : VideoBatchQueueRequest, QueueItem.video r ∈ mem →
    ∀ r', getVideoQueuedRequest r.id s = some r' →
      r'.operationName = r.operationName)

theorem getQueuedRequest_update_of_some (i : String) (u : BatchUpdate)
    (s : Store) (id : String) (r : BatchQueueRequest)
    (h : getQueuedRequest id s = some r) :
    getQueuedRequest id (updateQueuedRequest i u s) =
      some (if id = i then applyBatchUpdate r u else r) := by
  rw [getQueuedRequest_update]
  by_cases hid : id = i
  · subst hid
    simp [h]
  · simp [hid, h]

theorem getVideoQueuedRequest_update_of_some (i : String) (u : VideoUpdate)
    (s : Store) (id : String) (r : VideoBatchQueueRequest)
    (h : getVideoQueuedRequest id s = some r) :
    getVideoQueuedRequest id (updateVideoQueuedRequest i u s) =
      some (if id = i then applyVideoUpdate r u else r) := by
  rw [getVideoQueuedRequest_update]
  by_cases hid : id = i
  · subst hid
    simp [h]
  · simp [hid, h]

theorem applyBatchUpdate_id (r : BatchQueueRequest) (u : BatchUpdate) :
    (applyBatchUpdate r u).id = r.id := rfl

theorem applyVideoUpdate_id (r : VideoBatchQueueRequest) (u : VideoUpdate) :
    (applyVideoUpdate r u).id = r.id := rfl

theorem applyBatchUpdate_jobName (r : BatchQueueRequest) (u : BatchUpdate)
    (h : u.batchJobName = none) :
    (applyBatchUpdate r u).batchJobName = r.batchJobName := by
  simp [applyBatchUpdate, h, ovr]

theorem applyVideoUpdate_opName (r : VideoBatchQueueRequest) (u : VideoUpdate)
    (h : u.operationName = none) :
    (applyVideoUpdate r u).operationName = r.operationName := by
  simp [applyVideoUpdate, h, ovr]

theorem KeyedById_update (i : String) (u : BatchUpdate) (s : Store)
    (hk : KeyedById s) : KeyedById (updateQueuedRequest i u s) := by
  constructor
  · intro k r h
    rw [getQueuedRequest_update] at h
    by_cases hid : k = i
    · subst hid
      cases h0 : getQueuedRequest k s with
      | none => simp [h0] at h
      | some r0 =>
        simp [h0] at h
        rw [← h, applyBatchUpdate_id]
        exact hk.1 k r0 h0
    · rw [if_neg hid] at h
      exact hk.1 k r h
  · intro k r h
    rw [getVideo_of_queue_eq (videoQueue_update i u s) k] at h
    exact hk.2 k r h

theorem KeyedById_updateVideo (i : String) (u : VideoUpdate) (s : Store)
    (hk : KeyedById s) : KeyedById (updateVideoQueuedRequest i u s) := by
  constructor
  · intro k r h
    rw [getImage_of_queue_eq (queue_updateVideo i u s) k] at h
    exact hk.1 k r h
  · intro k r h
    rw [getVideoQueuedRequest_update] at h
    by_cases hid : k = i
    · subst hid
      cases h0 : getVideoQueuedRequest k s with
      | none => simp [h0] at h
      | some r0 =>
        simp [h0] at h
        rw [← h, applyVideoUpdate_id]
        exact hk.2 k r0 h0
    · rw [if_neg hid] at h
      exact hk.2 k r h

/-! Effect-shape lemmas: each polling path either leaves the store unchanged
or performs exactly one read-modify-write whose update carries a terminal
status justified by the remote verdict at the record's own remote name. -/

theorem select_image_store_spec (env : RemoteEnv) (now : Nat)
    (req : BatchQueueRequest) (s : Store) (c : Canvas) :
    (handleSelectRequest env now (QueueItem.image req) s c).1 = s
    ∨ (∃ fresh name imgs, getQueuedRequest req.id s = some fresh
        ∧ fresh.status = .submitted ∧ fresh.batchJobName = some name
        ∧ env.batchStatus name = .ok "JOB_STATE_SUCCEEDED"
        ∧ env.batchResults name = .ok imgs
        ∧ (handleSelectRequest env now (QueueItem.image req) s c).1 =
            updateQueuedRequest fresh.id
              { status := some .succeeded, resultImages := some imgs,
                completedAt := some now } s)
    ∨ (∃ fresh name st, getQueuedRequest req.id s = some fresh
        ∧ fresh.status = .submitted ∧ fresh.batchJobName = some name
        ∧ env.batchStatus name = .ok st
        ∧ (st = "JOB_STATE_FAILED" ∨ st = "JOB_STATE_CANCELLED")
        ∧ (handleSelectRequest env now (QueueItem.image req) s c).1 =
            updateQueuedRequest fresh.id
              { status := some .failed, error := some (jobErrorText st) } s) := by
  cases h : getQueuedRequest req.id s with
  | none =>
    left
    simp [handleSelectRequest, h]
  | some fresh =>
    simp only [handleSelectRequest, h]
    by_cases h1 : fresh.status = QueueStatus.succeeded ∧
        truthyLen fresh.resultImages = true
    · left
      rw [if_pos h1]
    · rw [if_neg h1]
      by_cases h2 : fresh.status = QueueStatus.submitted ∧
          truthyStr fresh.batchJobName = true
      · rw [if_pos h2]
        cases hname : fresh.batchJobName with
        | none =>
          exfalso
          rw [hname] at h2
          simp [truthyStr] at h2
        | some name =>
          simp only [Option.getD_some]
          cases henv : env.batchStatus name with
          | error e =>
            left
            rfl
          | ok st =>
            simp only []
            by_cases h5 : st = "JOB_STATE_SUCCEEDED"
            · rw [if_pos h5]
              cases hres : env.batchResults name with
              | error e =>
                left
                rfl
              | ok imgs =>
                right
                left
                exact ⟨fresh, name, imgs, rfl, h2.1, hname, h5 ▸ henv, hres, rfl⟩
            · rw [if_neg h5]
              by_cases h6 : st = "JOB_STATE_FAILED" ∨ st = "JOB_STATE_CANCELLED"
              · rw [if_pos h6]
                right
                right
                exact ⟨fresh, name, st, rfl, h2.1, hname, henv, h6, rfl⟩
              · rw [if_neg h6]
                left
                rfl
      · left
        rw [if_neg h2]

theorem select_video_store_spec (env : RemoteEnv) (now : Nat)
    (req : VideoBatchQueueRequest) (s : Store) (c : Canvas) :
    (handleSelectRequest env now (QueueItem.video req) s c).1 = s
    ∨ (∃ fresh name video, getVideoQueuedRequest req.id s = some fresh
        ∧ fresh.status = .processing ∧ fresh.operationName = some name
        ∧ (∃ st, env.videoOpStatus name = .ok st ∧ st.state = "SUCCEEDED")
        ∧ env.videoOpResult name = .ok video
        ∧ (handleSelectRequest env now (QueueItem.video req) s c).1 =
            updateVideoQueuedRequest fresh.id
              { status := some .succeeded, resultVideo := some video,
                completedAt := some now } s)
    ∨ (∃ fresh name st, getVideoQueuedRequest req.id s = some fresh
        ∧ fresh.status = .processing ∧ fresh.operationName = some name
        ∧ env.videoOpStatus name = .ok st ∧ st.state = "FAILED"
        ∧ (handleSelectRequest env now (QueueItem.video req) s c).1 =
            updateVideoQueuedRequest fresh.id
              { status := some .failed,
                error := some (orElseStr st.error "Video generation failed") } s) := by
  cases h : getVideoQueuedRequest req.id s with
  | none =>
    left
    simp [handleSelectRequest, h]
  | some fresh =>
    simp only [handleSelectRequest, h]
    by_cases h1 : fresh.status = QueueStatus.succeeded ∧
        truthyStr fresh.resultVideo = true
    · left
      rw [if_pos h1]
    · rw [if_neg h1]
      by_cases h2 : fresh.status = QueueStatus.processing ∧
          truthyStr fresh.operationName = true
      · rw [if_pos h2]
        cases hname : fresh.operationName with
        | none =>
          exfalso
          rw [hname] at h2
          simp [truthyStr] at h2
        | some name =>
          simp only [Option.getD_some]
          cases henv : env.videoOpStatus name with
          | error e =>
            left
            rfl
          | ok st =>
            simp only []
            by_cases h5 : st.state = "SUCCEEDED"
            · rw [if_pos h5]
              cases hres : env.videoOpResult name with
              | error e =>
                left
                rfl
              | ok video =>
                right
                left
                exact ⟨fresh, name, video, rfl, h2.1, hname, ⟨st, henv, h5⟩,
                  hres, rfl⟩
            · rw [if_neg h5]
              by_cases h6 : st.state = "FAILED"
              · rw [if_pos h6]
                right
                right
                exact ⟨fresh, name, st, rfl, h2.1, hname, henv, h6, rfl⟩
              · rw [if_neg h6]
                left
                rfl
      · left
        rw [if_neg h2]

theorem refresh_image_store_spec (env : RemoteEnv) (now : Nat)
    (req : BatchQueueRequest) (s : Store) :
    refreshStepImage env now req s = s
    ∨ (∃ name imgs, req.status = .submitted ∧ req.batchJobName = some name
        ∧ env.batchStatus name = .ok "JOB_STATE_SUCCEEDED"
        ∧ env.batchResults name = .ok imgs
        ∧ refreshStepImage env now req s =
            updateQueuedRequest req.id
              { status := some .succeeded, resultImages := some imgs,
                completedAt := some now } s)
    ∨ (∃ name st, req.status = .submitted ∧ req.batchJobName = some name
        ∧ env.batchStatus name = .ok st
        ∧ (st = "JOB_STATE_FAILED" ∨ st = "JOB_STATE_CANCELLED")
        ∧ refreshStepImage env now req s =
            updateQueuedRequest req.id
              { status := some .failed, error := some (jobErrorText st) } s) := by
  simp only [refreshStepImage]
  by_cases h2 : req.status = QueueStatus.submitted ∧
      truthyStr req.batchJobName = true
  · rw [if_pos h2]
    cases hname : req.batchJobName with
    | none =>
      exfalso
      rw [hname] at h2
      simp [truthyStr] at h2
    | some name =>
      simp only [Option.getD_some]
      cases henv : env.batchStatus name with
      | error e =>
        left
        rfl
      | ok st =>
        simp only []
        by_cases h5 : st = "JOB_STATE_SUCCEEDED"
        · rw [if_pos h5]
          cases hres : env.batchResults name with
          | error e =>
            left
            rfl
          | ok imgs =>
            right
            left
            exact ⟨name, imgs, h2.1, rfl, h5 ▸ henv, hres, rfl⟩
        · rw [if_neg h5]
          by_cases h6 : st = "JOB_STATE_FAILED" ∨ st = "JOB_STATE_CANCELLED"
          · rw [if_pos h6]
            right
            right
            exact ⟨name, st, h2.1, rfl, henv, h6, rfl⟩
          · rw [if_neg h6]
            left
            rfl
  · left
    rw [if_neg h2]

theorem refresh_video_store_spec (env : RemoteEnv) (now : Nat)
    (req : VideoBatchQueueRequest) (s : Store) :
    refreshStepVideo env now req s = s
    ∨ (∃ name video, (req.status = .submitted ∨ req.status = .processing)
        ∧ req.operationName = some name
        ∧ (∃ st, env.videoOpStatus name = .ok st ∧ st.state = "SUCCEEDED")
        ∧ env.videoOpResult name = .ok video
        ∧ refreshStepVideo env now req s =
            updateVideoQueuedRequest req.id
              { status := some .succeeded, resultVideo := some video,
                completedAt := some now } s)
    ∨ (∃ name st, (req.status = .submitted ∨ req.status = .processing)
        ∧ req.operationName = some name
        ∧ env.videoOpStatus name = .ok st ∧ st.state = "FAILED"
        ∧ refreshStepVideo env now req s =
            updateVideoQueuedRequest req.id
              { status := some .failed,
                error := some (orElseStr st.error "Video generation failed") } s) := by
  simp only [refreshStepVideo]
  by_cases h2 : (req.status = QueueStatus.submitted ∨
      req.status = QueueStatus.processing) ∧ truthyStr req.operationName = true
  · rw [if_pos h2]
    cases hname : req.operationName with
    | none =>
      exfalso
      rw [hname] at h2
      simp [truthyStr] at h2
    | some name =>
      simp only [Option.getD_some]
      cases henv : env.videoOpStatus name with
      | error e =>
        left
        rfl
      | ok st =>
        simp only []
        by_cases h5 : st.state = "SUCCEEDED"
        · rw [if_pos h5]
          cases hres : env.videoOpResult name with
          | error e =>
            left
            rfl
          | ok video =>
            right
            left
            exact ⟨name, video, h2.1, rfl, ⟨st, henv, h5⟩, hres, rfl⟩
        · rw [if_neg h5]
          by_cases h6 : st.state = "FAILED"
          · rw [if_pos h6]
            right
            right
            exact ⟨name, st, h2.1, rfl, henv, h6, rfl⟩
          · rw [if_neg h6]
            left
            rfl
  · left
    rw [if_neg h2]

/-! Verdict-justified updates: an update writing a terminal status whose
verdict the oracle reports at the target record's own remote name. -/

def imageVerdictOK (env : RemoteEnv) (s : Store) (i : String)
    (u : BatchUpdate) : Prop :=
  ∀ r0, getQueuedRequest i s = some r0 →
    ∃ nm, r0.batchJobName = some nm
      ∧ (u.status = some QueueStatus.succeeded →
          env.batchStatus nm = .ok "JOB_STATE_SUCCEEDED")
      ∧ (u.status = some QueueStatus.failed →
          ∃ st, env.batchStatus nm = .ok st
            ∧ (st = "JOB_STATE_FAILED" ∨ st = "JOB_STATE_CANCELLED"))

def videoVerdictOK (env : RemoteEnv) (s : Store) (i : String)
    (u : VideoUpdate) : Prop :=
  ∀ r0, getVideoQueuedRequest i s = some r0 →
    ∃ nm, r0.operationName = some nm
      ∧ (u.status = some QueueStatus.succeeded →
          ∃ st, env.videoOpStatus nm = .ok st ∧ st.state = "SUCCEEDED")
      ∧ (u.status = some QueueStatus.failed →
          ∃ st, env.videoOpStatus nm = .ok st ∧ st.state = "FAILED")

theorem update_mono_image (env : RemoteEnv) (s : Store) (i : String)
    (u : BatchUpdate)
    (hterm : u.status = some QueueStatus.succeeded ∨
      u.status = some QueueStatus.failed)
    (hv : imageVerdictOK env s i u) (hc : EnvConsistent env s) :
    ∀ id r r', getQueuedRequest id s = some r →
      getQueuedRequest id (updateQueuedRequest i u s) = some r' →
      statusLe r.status r'.status = true := by
  intro id r r' hget hget'
  rw [getQueuedRequest_update_of_some i u s id r hget] at hget'
  by_cases hid : id = i
  · rw [if_pos hid] at hget'
    have hr' : r' = applyBatchUpdate r u := by
      exact (Option.some.injEq _ _ ▸ hget').symm
    subst hid
    obtain ⟨nm, hnm, hsv, hfv⟩ := hv r hget
    rcases hterm with hu | hu
    · have hst : r'.status = QueueStatus.succeeded := by
        rw [hr', applyBatchUpdate, hu]
        rfl
      rw [hst]
      cases hrs : r.status <;> try rfl
      · exfalso
        have := ((hc.1 id r nm hget hnm).2 hrs) "JOB_STATE_SUCCEEDED" (hsv hu)
        exact this rfl
    · have hst : r'.status = QueueStatus.failed := by
        rw [hr', applyBatchUpdate, hu]
        rfl
      rw [hst]
      cases hrs : r.status <;> try rfl
      · exfalso
        obtain ⟨st, hok, hfc⟩ := hfv hu
        have := ((hc.1 id r nm hget hnm).1 hrs) st hok
        rcases hfc with h | h
        · exact this.1 h
        · exact this.2 h
  · rw [if_neg hid] at hget'
    have : r' = r := by
      exact (Option.some.injEq _ _ ▸ hget').symm
    rw [this]
    exact statusLe_refl r.status

theorem update_mono_video (env : RemoteEnv) (s : Store) (i : String)
    (u : VideoUpdate)
    (hterm : u.status = some QueueStatus.succeeded ∨
      u.status = some QueueStatus.failed)
    (hv : videoVerdictOK env s i u) (hc : EnvConsistent env s) :
    ∀ id r r', getVideoQueuedRequest id s = some r →
      getVideoQueuedRequest id (updateVideoQueuedRequest i u s) = some r' →
      statusLe r.status r'.status = true := by
  intro id r r' hget hget'
  rw [getVideoQueuedRequest_update_of_some i u s id r hget] at hget'
  by_cases hid : id = i
  · rw [if_pos hid] at hget'
    have hr' : r' = applyVideoUpdate r u := by
      exact (Option.some.injEq _ _ ▸ hget').symm
    subst hid
    obtain ⟨nm, hnm, hsv, hfv⟩ := hv r hget
    rcases hterm with hu | hu
    · have hst : r'.status = QueueStatus.succeeded := by
        rw [hr', applyVideoUpdate, hu]
        rfl
      rw [hst]
      cases hrs : r.status <;> try rfl
      · exfalso
        obtain ⟨st, hok, hstate⟩ := hsv hu
        have := ((hc.2 id r nm hget hnm).2 hrs) st hok
        exact this hstate
    · have hst : r'.status = QueueStatus.failed := by
        rw [hr', applyVideoUpdate, hu]
        rfl
      rw [hst]
      cases hrs : r.status <;> try rfl
      · exfalso
        obtain ⟨st, hok, hstate⟩ := hfv hu
        have := ((hc.2 id r nm hget hnm).1 hrs) st hok
        exact this hstate
  · rw [if_neg hid] at hget'
    have : r' = r := by
      exact (Option.some.injEq _ _ ▸ hget').symm
    rw [this]
    exact statusLe_refl r.status

theorem EnvConsistent_update_image (env : RemoteEnv) (s : Store) (i : String)
    (u : BatchUpdate) (hc : EnvConsistent env s) (hnm : u.batchJobName = none)
    (hterm : u.status = some QueueStatus.succeeded ∨
      u.status = some QueueStatus.failed)
    (hv : imageVerdictOK env s i u) :
    EnvConsistent env (updateQueuedRequest i u s) := by
  constructor
  · intro k r nm hget' hname'
    by_cases hid : k = i
    · subst hid
      rw [getQueuedRequest_update, if_pos rfl] at hget'
      cases h0 : getQueuedRequest k s with
      | none => simp [h0] at hget'
      | some r0 =>
        simp only [h0, Option.map_some] at hget'
        have hr : r = applyBatchUpdate r0 u := by
          exact (Option.some.injEq _ _ ▸ hget').symm
        have hrn : r.batchJobName = r0.batchJobName := by
          rw [hr]
          exact applyBatchUpdate_jobName r0 u hnm
        obtain ⟨nm0, hnm0, hsv, hfv⟩ := hv r0 h0
        have hnmeq : nm0 = nm := by
          rw [hname', hnm0] at hrn
          exact (Option.some.injEq _ _ ▸ hrn).symm
        rcases hterm with hu | hu
        · have hst : r.status = QueueStatus.succeeded := by
            rw [hr, applyBatchUpdate, hu]
            rfl
          constructor
          · intro _ st hok
            have h1 : env.batchStatus nm = .ok "JOB_STATE_SUCCEEDED" :=
              hnmeq ▸ hsv hu
            rw [h1] at hok
            injection hok with hh
            rw [← hh]
            exact ⟨by decide, by decide⟩
          · intro hfail
            rw [hst] at hfail
            cases hfail
        · have hst : r.status = QueueStatus.failed := by
            rw [hr, applyBatchUpdate, hu]
            rfl
          constructor
          · intro hsucc
            rw [hst] at hsucc
            cases hsucc
          · intro _ st hok
            obtain ⟨st0, hok0, hfc⟩ := hfv hu
            have h1 : env.batchStatus nm = .ok st0 := hnmeq ▸ hok0
            rw [h1] at hok
            injection hok with hh
            rw [← hh]
            rcases hfc with h | h <;> rw [h] <;> decide
    · rw [getQueuedRequest_update, if_neg hid] at hget'
      exact hc.1 k r nm hget' hname'
  · intro k r nm hget' hname'
    rw [getVideo_of_queue_eq (videoQueue_update i u s) k] at hget'
    exact hc.2 k r nm hget' hname'

theorem EnvConsistent_update_video (env : RemoteEnv) (s : Store) (i : String)
    (u : VideoUpdate) (hc : EnvConsistent env s) (hnm : u.operationName = none)
    (hterm : u.status = some QueueStatus.succeeded ∨
      u.status = some QueueStatus.failed)
    (hv : videoVerdictOK env s i u) :
    EnvConsistent env (updateVideoQueuedRequest i u s) := by
  constructor
  · intro k r nm hget' hname'
    rw [getImage_of_queue_eq (queue_updateVideo i u s) k] at hget'
    exact hc.1 k r nm hget' hname'
  · intro k r nm hget' hname'
    by_cases hid : k = i
    · subst hid
      rw [getVideoQueuedRequest_update, if_pos rfl] at hget'
      cases h0 : getVideoQueuedRequest k s with
      | none => simp [h0] at hget'
      | some r0 =>
        simp only [h0, Option.map_some] at hget'
        have hr : r = applyVideoUpdate r0 u := by
          exact (Option.some.injEq _ _ ▸ hget').symm
        have hrn : r.operationName = r0.operationName := by
          rw [hr]
          exact applyVideoUpdate_opName r0 u hnm
        obtain ⟨nm0, hnm0, hsv, hfv⟩ := hv r0 h0
        have hnmeq : nm0 = nm := by
          rw [hname', hnm0] at hrn
          exact (Option.some.injEq _ _ ▸ hrn).symm
        rcases hterm with hu | hu
        · have hst : r.status = QueueStatus.succeeded := by
            rw [hr, applyVideoUpdate, hu]
            rfl
          constructor
          · intro _ st hok
            obtain ⟨st0, hok0, hstate0⟩ := hsv hu
            have h1 : env.videoOpStatus nm = .ok st0 := hnmeq ▸ hok0
            rw [h1] at hok
            injection hok with hh
            rw [← hh, hstate0]
            decide
          · intro hfail
            rw [hst] at hfail
            cases hfail
        · have hst : r.status = QueueStatus.failed := by
            rw [hr, applyVideoUpdate, hu]
            rfl
          constructor
          · intro hsucc
            rw [hst] at hsucc
            cases hsucc
          · intro _ st hok
            obtain ⟨st0, hok0, hstate0⟩ := hfv hu
            have h1 : env.videoOpStatus nm = .ok st0 := hnmeq ▸ hok0
            rw [h1] at hok
            injection hok with hh
            rw [← hh, hstate0]
            decide
    · rw [getVideoQueuedRequest_update, if_neg hid] at hget'
      exact hc.2 k r nm hget' hname'

theorem MemNames_update_image (mem : List QueueItem) (s : Store) (i : String)
    (u : BatchUpdate) (h : MemNames mem s) (hnm : u.batchJobName = none) :
    MemNames mem (updateQueuedRequest i u s) := by
  constructor
  · intro r hmem r' hget'
    by_cases hid : r.id = i
    · rw [hid, getQueuedRequest_update, if_pos rfl] at hget'
      cases h0 : getQueuedRequest i s with
      | none => simp [h0] at hget'
      | some r0 =>
        simp only [h0, Option.map_some] at hget'
        have hr : r' = applyBatchUpdate r0 u := by
          exact (Option.some.injEq _ _ ▸ hget').symm
        rw [hr, applyBatchUpdate_jobName r0 u hnm]
        exact h.1 r hmem r0 (hid ▸ h0)
    · rw [getQueuedRequest_update, if_neg hid] at hget'
      exact h.1 r hmem r' hget'
  · intro r hmem r' hget'
    rw [getVideo_of_queue_eq (videoQueue_update i u s) r.id] at hget'
    exact h.2 r hmem r' hget'

theorem MemNames_update_video (mem : List QueueItem) (s : Store) (i : String)
    (u : VideoUpdate) (h : MemNames mem s) (hnm : u.operationName = none) :
    MemNames mem (updateVideoQueuedRequest i u s) := by
  constructor
  · intro r hmem r' hget'
    rw [getImage_of_queue_eq (queue_updateVideo i u s) r.id] at hget'
    exact h.1 r hmem r' hget'
  · intro r hmem r' hget'
    by_cases hid : r.id = i
    · rw [hid, getVideoQueuedRequest_update, if_pos rfl] at hget'
      cases h0 : getVideoQueuedRequest i s with
      | none => simp [h0] at hget'
      | some r0 =>
        simp only [h0, Option.map_some] at hget'
        have hr : r' = applyVideoUpdate r0 u := by
          exact (Option.some.injEq _ _ ▸ hget').symm
        rw [hr, applyVideoUpdate_opName r0 u hnm]
        exact h.2 r hmem r0 (hid ▸ h0)
    · rw [getVideoQueuedRequest_update, if_neg hid] at hget'
      exact h.2 r hmem r' hget'

def RefreshInv (env : RemoteEnv) (mem : List QueueItem) (s : Store) : Prop :=
  EnvConsistent env s ∧ MemNames mem s

theorem refreshStep_bundle (env : RemoteEnv) (now : Nat) (item : QueueItem)
    (mem : List QueueItem) (s : Store) (hinv : RefreshInv env mem s)
    (hmem : item ∈ mem) :
    RefreshInv env mem (refreshStep env now item s)
    ∧ (∀ id r, getQueuedRequest id s = some r →
        ∃ r', getQueuedRequest id (refreshStep env now item s) = some r'
          ∧ statusLe r.status r'.status = true)
    ∧ (∀ id r, getVideoQueuedRequest id s = some r →
        ∃ r', getVideoQueuedRequest id (refreshStep env now item s) = some r'
          ∧ statusLe r.status r'.status = true) := by
  cases item with
  | image req =>
    have hspec := refresh_image_store_spec env now req s
    simp only [refreshStep]
    rcases hspec with heq | ⟨name, imgs, hst, hname, henv, hres, heq⟩ |
      ⟨name, st, hst, hname, henv, hterm', heq⟩
    · rw [heq]
      exact ⟨hinv, fun id r h => ⟨r, h, statusLe_refl r.status⟩,
        fun id r h => ⟨r, h, statusLe_refl r.status⟩⟩
    · rw [heq]
      have hv : imageVerdictOK env s req.id
          { status := some .succeeded, resultImages := some imgs,
            completedAt := some now } := by
        intro r0 h0
        refine ⟨name, ?_, fun _ => henv, fun hcon => by simp at hcon⟩
        rw [hinv.2.1 req hmem r0 h0, hname]
      refine ⟨⟨EnvConsistent_update_image env s req.id _ hinv.1 rfl
          (Or.inl rfl) hv, MemNames_update_image mem s req.id _ hinv.2 rfl⟩,
        ?_, ?_⟩
      · intro id r h
        refine ⟨_, getQueuedRequest_update_of_some req.id _ s id r h, ?_⟩
        exact update_mono_image env s req.id _ (Or.inl rfl) hv hinv.1 id r _ h
          (getQueuedRequest_update_of_some req.id _ s id r h)
      · intro id r h
        rw [getVideo_of_queue_eq (videoQueue_update req.id _ s) id]
        exact ⟨r, h, statusLe_refl r.status⟩
    · rw [heq]
      have hv : imageVerdictOK env s req.id
          { status := some .failed, error := some (jobErrorText st) } := by
        intro r0 h0
        refine ⟨name, ?_, fun hcon => by simp at hcon,
          fun _ => ⟨st, henv, hterm'⟩⟩
        rw [hinv.2.1 req hmem r0 h0, hname]
      refine ⟨⟨EnvConsistent_update_image env s req.id _ hinv.1 rfl
          (Or.inr rfl) hv, MemNames_update_image mem s req.id _ hinv.2 rfl⟩,
        ?_, ?_⟩
      · intro id r h
        refine ⟨_, getQueuedRequest_update_of_some req.id _ s id r h, ?_⟩
        exact update_mono_image env s req.id _ (Or.inr rfl) hv hinv.1 id r _ h
          (getQueuedRequest_update_of_some req.id _ s id r h)
      · intro id r h
        rw [getVideo_of_queue_eq (videoQueue_update req.id _ s) id]
        exact ⟨r, h, statusLe_refl r.status⟩
  | video req =>
    have hspec := refresh_video_store_spec env now req s
    simp only [refreshStep]
    rcases hspec with heq | ⟨name, video, hst, hname, hsok, hres, heq⟩ |
      ⟨name, st, hst, hname, henv, hstate, heq⟩
    · rw [heq]
      exact ⟨hinv, fun id r h => ⟨r, h, statusLe_refl r.status⟩,
        fun id r h => ⟨r, h, statusLe_refl r.status⟩⟩
    · rw [heq]
      have hv : videoVerdictOK env s req.id
          { status := some .succeeded, resultVideo := some video,
            completedAt := some now } := by
        intro r0 h0
        refine ⟨name, ?_, fun _ => hsok, fun hcon => by simp at hcon⟩
        rw [hinv.2.2 req hmem r0 h0, hname]
      refine ⟨⟨EnvConsistent_update_video env s req.id _ hinv.1 rfl
          (Or.inl rfl) hv, MemNames_update_video mem s req.id _ hinv.2 rfl⟩,
        ?_, ?_⟩
      · intro id r h
        rw [getImage_of_queue_eq (queue_updateVideo req.id _ s) id]
        exact ⟨r, h, statusLe_refl r.status⟩
      · intro id r h
        refine ⟨_, getVideoQueuedRequest_update_of_some req.id _ s id r h, ?_⟩
        exact update_mono_video env s req.id _ (Or.inl rfl) hv hinv.1 id r _ h
          (getVideoQueuedRequest_update_of_some req.id _ s id r h)
    · rw [heq]
      have hv : videoVerdictOK env s req.id
          { status := some .failed,
            error := some (orElseStr st.error "Video generation failed") } := by
        intro r0 h0
        refine ⟨name, ?_, fun hcon => by simp at hcon,
          fun _ => ⟨st, henv, hstate⟩⟩
        rw [hinv.2.2 req hmem r0 h0, hname]
      refine ⟨⟨EnvConsistent_update_video env s req.id _ hinv.1 rfl
          (Or.inr rfl) hv, MemNames_update_video mem s req.id _ hinv.2 rfl⟩,
        ?_, ?_⟩
      · intro id r h
        rw [getImage_of_queue_eq (queue_updateVideo req.id _ s) id]
        exact ⟨r, h, statusLe_refl r.status⟩
      · intro id r h
        refine ⟨_, getVideoQueuedRequest_update_of_some req.id _ s id r h, ?_⟩
        exact update_mono_video env s req.id _ (Or.inr rfl) hv hinv.1 id r _ h
          (getVideoQueuedRequest_update_of_some req.id _ s id r h)

theorem refreshAll_bundle (env : RemoteEnv) (now : Nat) :
    ∀ (items mem : List QueueItem) (s : Store),
      (∀ i ∈ items, i ∈ mem) → RefreshInv env mem s →
      (∀ id r, getQueuedRequest id s = some r →
        ∃ r', getQueuedRequest id
            (items.foldl (fun s2 it => refreshStep env now it s2) s) = some r'
          ∧ statusLe r.status r'.status = true)
      ∧ (∀ id r, getVideoQueuedRequest id s = some r →
        ∃ r', getVideoQueuedRequest id
            (items.foldl (fun s2 it => refreshStep env now it s2) s) = some r'
          ∧ statusLe r.status r'.status = true) := by
  intro items
  induction items with
  | nil =>
    intro mem s hsub hinv
    exact ⟨fun id r h => ⟨r, h, statusLe_refl r.status⟩,
      fun id r h => ⟨r, h, statusLe_refl r.status⟩⟩
  | cons head rest ih =>
    intro mem s hsub hinv
    obtain ⟨hinv1, mono_i, mono_v⟩ :=
      refreshStep_bundle env now head mem s hinv (hsub head (by simp))
    have hsub' : ∀ i ∈ rest, i ∈ mem := fun i hi => hsub i (by simp [hi])
    obtain ⟨ih_i, ih_v⟩ := ih mem (refreshStep env now head s) hsub' hinv1
    constructor
    · intro id r h
      obtain ⟨r1, h1, le1⟩ := mono_i id r h
      obtain ⟨r2, h2, le2⟩ := ih_i id r1 h1
      exact ⟨r2, h2, statusLe_trans _ _ _ le1 le2⟩
    · intro id r h
      obtain ⟨r1, h1, le1⟩ := mono_v id r h
      obtain ⟨r2, h2, le2⟩ := ih_v id r1 h1
      exact ⟨r2, h2, statusLe_trans _ _ _ le1 le2⟩

theorem videoQueue_handleQueueForBatch (inp : QueueSubmitInput)
    (outcome : Except String String) (t : Nat) (s : Store) :
    (handleQueueForBatch inp outcome t s).videoQueue = s.videoQueue := by
  unfold handleQueueForBatch
  split
  · rfl
  · cases outcome with
    | ok v =>
      show (updateQueuedRequest _ _ _).videoQueue = _
      rw [videoQueue_update]
      rfl
    | error e =>
      show (updateQueuedRequest _ _ _).videoQueue = _
      rw [videoQueue_update]
      rfl

theorem queue_handleVideoQueueForBatch (inp : VideoSubmitInput)
    (st : VideoInputState) (outcome : Except String String) (t : Nat)
    (s : Store) :
    (handleVideoQueueForBatch inp st outcome t s).queue = s.queue := by
  unfold handleVideoQueueForBatch
  split
  · rfl
  · cases outcome with
    | ok v =>
      show (updateVideoQueuedRequest _ _ _).queue = _
      rw [queue_updateVideo]
      rfl
    | error e =>
      show (updateVideoQueuedRequest _ _ _).queue = _
      rw [queue_updateVideo]
      rfl

/-- Per-operation side conditions under which the system is well-behaved: a
submission uses a fresh id (`generateId()`), and a bulk refresh runs against a
remote oracle consistent with locally persisted terminal verdicts, over an
in-memory snapshot whose remote identifiers agree with the store. -/
def OpOK : PanelOp → Store → Prop
  | .submitImage inp _ _, s => getQueuedRequest inp.id s = none
  | .submitVideo inp _ _ _, s => getVideoQueuedRequest inp.id s = none
  | .refreshAllOp env _ mem, s => EnvConsistent env s ∧ MemNames mem s
  | _, _ => True

/-- C2: no operation of the panel — submission persistence, on-demand
selection, bulk refresh, or deletion — ever moves a stored record's status
backwards or out of a terminal state: whenever a record is present before and
after an operation, the two observed statuses are related by `statusLe`, the
subsequence order `pending → submitted → (processing →)? succeeded/failed`
with `succeeded` and `failed` absorbing.  Holds in both namespaces, given
fresh submission ids and (for bulk refresh) a remote oracle that does not
contradict recorded terminal verdicts. -/
theorem status_monotonic (op : PanelOp) (s : Store) (c : Canvas)
    (hk : KeyedById s) (hok : OpOK op s) :
    (∀ id r r', getQueuedRequest id s = some r →
      getQueuedRequest id (applyOp op (s, c)).1 = some r' →
      statusLe r.status r'.status = true)
    ∧ (∀ id r r', getVideoQueuedRequest id s = some r →
      getVideoQueuedRequest id (applyOp op (s, c)).1 = some r' →
      statusLe r.status r'.status = true) := by
  cases op with
  | submitImage inp outcome t =>
    constructor
    · intro id r r' h h'
      by_cases hid : id = inp.id
      · rw [hid] at h
        rw [hok] at h
        cases h
      · have hq : getQueuedRequest id (applyOp (.submitImage inp outcome t)
            (s, c)).1 = getQueuedRequest id s := by
          show getQueuedRequest id (handleQueueForBatch inp outcome t s) = _
          unfold handleQueueForBatch
          split
          · rfl
          · have hpersist : getQueuedRequest id
                (handleQueueForBatch_persist inp s) = getQueuedRequest id s := by
              unfold handleQueueForBatch_persist saveQueuedRequest
              show getKey id (setKey (mkQueueRequest inp).id _ _) = _
              rw [getKey_setKey_ne id (mkQueueRequest inp).id _ _
                (by exact hid)]
              rfl
            cases outcome with
            | ok v =>
              show getQueuedRequest id (updateQueuedRequest inp.id _ _) = _
              rw [getQueuedRequest_update, if_neg hid, hpersist]
            | error e =>
              show getQueuedRequest id (updateQueuedRequest inp.id _ _) = _
              rw [getQueuedRequest_update, if_neg hid, hpersist]
        rw [hq, h] at h'
        cases h'
        exact statusLe_refl r.status
    · intro id r r' h h'
      have hq : getVideoQueuedRequest id (applyOp (.submitImage inp outcome t)
          (s, c)).1 = getVideoQueuedRequest id s :=
        getVideo_of_queue_eq (videoQueue_handleQueueForBatch inp outcome t s) id
      rw [hq, h] at h'
      cases h'
      exact statusLe_refl r.status
  | submitVideo inp vst outcome t =>
    constructor
    · intro id r r' h h'
      have hq : getQueuedRequest id (applyOp (.submitVideo inp vst outcome t)
          (s, c)).1 = getQueuedRequest id s :=
        getImage_of_queue_eq
          (queue_handleVideoQueueForBatch inp vst outcome t s) id
      rw [hq, h] at h'
      cases h'
      exact statusLe_refl r.status
    · intro id r r' h h'
      by_cases hid : id = inp.id
      · rw [hid] at h
        rw [hok] at h
        cases h
      · have hq : getVideoQueuedRequest id
            (applyOp (.submitVideo inp vst outcome t) (s, c)).1 =
            getVideoQueuedRequest id s := by
          show getVideoQueuedRequest id
            (handleVideoQueueForBatch inp vst outcome t s) = _
          unfold handleVideoQueueForBatch
          split
          · rfl
          · have hpersist : getVideoQueuedRequest id
                (handleVideoQueueForBatch_persist inp vst s) =
                getVideoQueuedRequest id s := by
              unfold handleVideoQueueForBatch_persist saveVideoQueuedRequest
              show getKey id (setKey (mkVideoQueueRequest inp vst).id _ _) = _
              rw [getKey_setKey_ne id (mkVideoQueueRequest inp vst).id _ _
                (by exact hid)]
              rfl
            cases outcome with
            | ok v =>
              show getVideoQueuedRequest id
                (updateVideoQueuedRequest inp.id _ _) = _
              rw [getVideoQueuedRequest_update, if_neg hid, hpersist]
            | error e =>
              show getVideoQueuedRequest id
                (updateVideoQueuedRequest inp.id _ _) = _
              rw [getVideoQueuedRequest_update, if_neg hid, hpersist]
        rw [hq, h] at h'
        cases h'
        exact statusLe_refl r.status
  | selectReq env now item =>
    cases item with
    | image req =>
      have hspec := select_image_store_spec env now req s c
      constructor
      · intro id r r' h h'
        rcases hspec with heq | ⟨fresh, name, imgs, hget, hst, hname, henv,
            hres, heq⟩ | ⟨fresh, name, stt, hget, hst, hname, henv, hterm',
            heq⟩
        · show statusLe r.status r'.status = true
          rw [show (applyOp (.selectReq env now (QueueItem.image req))
            (s, c)).1 = (handleSelectRequest env now (QueueItem.image req)
              s c).1 from rfl, heq, h] at h'
          cases h'
          exact statusLe_refl r.status
        · rw [show (applyOp (.selectReq env now (QueueItem.image req))
            (s, c)).1 = (handleSelectRequest env now (QueueItem.image req)
              s c).1 from rfl, heq] at h'
          rw [getQueuedRequest_update_of_some fresh.id _ s id r h] at h'
          cases h'
          by_cases hid : id = fresh.id
          · rw [if_pos hid]
            have hfid : fresh.id = req.id := hk.1 req.id fresh hget
            have hreq : r = fresh := by
              rw [hid, hfid, hget] at h
              exact (Option.some.injEq _ _ ▸ h).symm
            have : (applyBatchUpdate r
                { status := some .succeeded, resultImages := some imgs,
                  completedAt := some now }).status = QueueStatus.succeeded := rfl
            rw [this, hreq, hst]
            rfl
          · rw [if_neg hid]
            exact statusLe_refl r.status
        · rw [show (applyOp (.selectReq env now (QueueItem.image req))
            (s, c)).1 = (handleSelectRequest env now (QueueItem.image req)
              s c).1 from rfl, heq] at h'
          rw [getQueuedRequest_update_of_some fresh.id _ s id r h] at h'
          cases h'
          by_cases hid : id = fresh.id
          · rw [if_pos hid]
            have hfid : fresh.id = req.id := hk.1 req.id fresh hget
            have hreq : r = fresh := by
              rw [hid, hfid, hget] at h
              exact (Option.some.injEq _ _ ▸ h).symm
            have : (applyBatchUpdate r
                { status := some .failed,
                  error := some (jobErrorText stt) }).status =
                QueueStatus.failed := rfl
            rw [this, hreq, hst]
            rfl
          · rw [if_neg hid]
            exact statusLe_refl r.status
      · intro id r r' h h'
        have hvq : (handleSelectRequest env now (QueueItem.image req)
            s c).1.videoQueue = s.videoQueue := by
          rcases hspec with heq | ⟨fresh, name, imgs, hget, hst, hname, henv,
              hres, heq⟩ | ⟨fresh, name, stt, hget, hst, hname, henv, hterm',
              heq⟩ <;> rw [heq]
          · rw [videoQueue_update]
          · rw [videoQueue_update]
        rw [show (applyOp (.selectReq env now (QueueItem.image req))
          (s, c)).1 = (handleSelectRequest env now (QueueItem.image req)
            s c).1 from rfl] at h'
        rw [getVideo_of_queue_eq hvq id, h] at h'
        cases h'
        exact statusLe_refl r.status
    | video req =>
      have hspec := select_video_store_spec env now req s c
      constructor
      · intro id r r' h h'
        have hq : (handleSelectRequest env now (QueueItem.video req)
            s c).1.queue = s.queue := by
          rcases hspec with heq | ⟨fresh, name, video, hget, hst, hname, hsok,
              hres, heq⟩ | ⟨fresh, name, stt, hget, hst, hname, henv, hstate,
              heq⟩ <;> rw [heq]
          · rw [queue_updateVideo]
          · rw [queue_updateVideo]
        rw [show (applyOp (.selectReq env now (QueueItem.video req))
          (s, c)).1 = (handleSelectRequest env now (QueueItem.video req)
            s c).1 from rfl] at h'
        rw [getImage_of_queue_eq hq id, h] at h'
        cases h'
        exact statusLe_refl r.status
      · intro id r r' h h'
        rcases hspec with heq | ⟨fresh, name, video, hget, hst, hname, hsok,
            hres, heq⟩ | ⟨fresh, name, stt, hget, hst, hname, henv, hstate,
            heq⟩
        · rw [show (applyOp (.selectReq env now (QueueItem.video req))
            (s, c)).1 = (handleSelectRequest env now (QueueItem.video req)
              s c).1 from rfl, heq, h] at h'
          cases h'
          exact statusLe_refl r.status
        · rw [show (applyOp (.selectReq env now (QueueItem.video req))
            (s, c)).1 = (handleSelectRequest env now (QueueItem.video req)
              s c).1 from rfl, heq] at h'
          rw [getVideoQueuedRequest_update_of_some fresh.id _ s id r h] at h'
          cases h'
          by_cases hid : id = fresh.id
          · rw [if_pos hid]
            have hfid : fresh.id = req.id := hk.2 req.id fresh hget
            have hreq : r = fresh := by
              rw [hid, hfid, hget] at h
              exact (Option.some.injEq _ _ ▸ h).symm
            have : (applyVideoUpdate r
                { status := some .succeeded, resultVideo := some video,
                  completedAt := some now }).status = QueueStatus.succeeded := rfl
            rw [this, hreq, hst]
            rfl
          · rw [if_neg hid]
            exact statusLe_refl r.status
        · rw [show (applyOp (.selectReq env now (QueueItem.video req))
            (s, c)).1 = (handleSelectRequest env now (QueueItem.video req)
              s c).1 from rfl, heq] at h'
          rw [getVideoQueuedRequest_update_of_some fresh.id _ s id r h] at h'
          cases h'
          by_cases hid : id = fresh.id
          · rw [if_pos hid]
            have hfid : fresh.id = req.id := hk.2 req.id fresh hget
            have hreq : r = fresh := by
              rw [hid, hfid, hget] at h
              exact (Option.some.injEq _ _ ▸ h).symm
            have : (applyVideoUpdate r
                { status := some .failed,
                  error := some (orElseStr stt.error
                    "Video generation failed") }).status =
                QueueStatus.failed := rfl
            rw [this, hreq, hst]
            rfl
          · rw [if_neg hid]
            exact statusLe_refl r.status
  | refreshAllOp env now mem =>
    obtain ⟨bi, bv⟩ := refreshAll_bundle env now mem mem s (fun i hi => hi)
      ⟨hok.1, hok.2⟩
    constructor
    · intro id r r' h h'
      obtain ⟨r1, h1, le1⟩ := bi id r h
      have : r' = r1 := by
        rw [show (applyOp (.refreshAllOp env now mem) (s, c)).1 =
          handleRefreshAll env now mem s from rfl] at h'
        rw [show handleRefreshAll env now mem s =
          mem.foldl (fun s2 it => refreshStep env now it s2) s from rfl,
          h1] at h'
        exact (Option.some.injEq _ _ ▸ h').symm
      rw [this]
      exact le1
    · intro id r r' h h'
      obtain ⟨r1, h1, le1⟩ := bv id r h
      have : r' = r1 := by
        rw [show (applyOp (.refreshAllOp env now mem) (s, c)).1 =
          handleRefreshAll env now mem s from rfl] at h'
        rw [show handleRefreshAll env now mem s =
          mem.foldl (fun s2 it => refreshStep env now it s2) s from rfl,
          h1] at h'
        exact (Option.some.injEq _ _ ▸ h').symm
      rw [this]
      exact le1
  | deleteReq did isVideo =>
    constructor
    · intro id r r' h h'
      cases isVideo with
      | true =>
        rw [show (applyOp (.deleteReq did true) (s, c)).1 =
          deleteVideoQueuedRequest did s from rfl] at h'
        have : getQueuedRequest id (deleteVideoQueuedRequest did s) =
            getQueuedRequest id s := rfl
        rw [this, h] at h'
        cases h'
        exact statusLe_refl r.status
      | false =>
        rw [show (applyOp (.deleteReq did false) (s, c)).1 =
          deleteQueuedRequest did s from rfl] at h'
        by_cases hid : id = did
        · exfalso
          rw [hid] at h'
          have : getQueuedRequest did (deleteQueuedRequest did s) = none := by
            show getKey did (delKey did s.queue) = none
            exact getKey_delKey_self did s.queue
          rw [this] at h'
          cases h'
        · have : getQueuedRequest id (deleteQueuedRequest did s) =
              getQueuedRequest id s := by
            show getKey id (delKey did s.queue) = getKey id s.queue
            exact getKey_delKey_ne id did s.queue hid
          rw [this, h] at h'
          cases h'
          exact statusLe_refl r.status
    · intro id r r' h h'
      cases isVideo with
      | false =>
        rw [show (applyOp (.deleteReq did false) (s, c)).1 =
          deleteQueuedRequest did s from rfl] at h'
        have : getVideoQueuedRequest id (deleteQueuedRequest did s) =
            getVideoQueuedRequest id s := rfl
        rw [this, h] at h'
        cases h'
        exact statusLe_refl r.status
      | true =>
        rw [show (applyOp (.deleteReq did true) (s, c)).1 =
          deleteVideoQueuedRequest did s from rfl] at h'
        by_cases hid : id = did
        · exfalso
          rw [hid] at h'
          have : getVideoQueuedRequest did (deleteVideoQueuedRequest did s) =
              none := by
            show getKey did (delKey did s.videoQueue) = none
            exact getKey_delKey_self did s.videoQueue
          rw [this] at h'
          cases h'
        · have : getVideoQueuedRequest id (deleteVideoQueuedRequest did s) =
              getVideoQueuedRequest id s := by
            show getKey id (delKey did s.videoQueue) = getKey id s.videoQueue
            exact getKey_delKey_ne id did s.videoQueue hid
          rw [this, h] at h'
          cases h'
          exact statusLe_refl r.status

def monoRecSub : BatchQueueRequest :=
  { id := "a", type := .generate, prompt := "p", status := .submitted,
    batchJobName := some "b", createdAt := 2 }

def monoStore0 : Store := { queue := [("a", monoRecSub)], videoQueue := [] }

def monoEnv : RemoteEnv :=
  { batchStatus := fun _ => .ok "JOB_STATE_SUCCEEDED"
    batchResults := fun _ => .ok ["img"]
    videoOpStatus := fun _ => .ok { state := "RUNNING" }
    videoOpResult := fun _ => .ok "vid" }

def monoOp0 : PanelOp := .selectReq monoEnv 9 (QueueItem.image monoRecSub)

def monoRecSucc : BatchQueueRequest :=
  { id := "a", type := .generate, prompt := "p", status := .succeeded,
    batchJobName := some "b", resultImages := some ["img"], createdAt := 2,
    completedAt := some 9 }

theorem monoStore0_keyed : KeyedById monoStore0 := by
  constructor
  · intro k r h
    by_cases hk : "a" = k
    · simp only [getQueuedRequest, monoStore0, getKey, if_pos hk] at h
      injection h with h2
      rw [← h2]
      exact hk
    · simp only [getQueuedRequest, monoStore0, getKey, if_neg hk] at h
      cases h
  · intro k r h
    simp only [getVideoQueuedRequest, monoStore0, getKey] at h
    cases h

theorem status_monotonic_witness :
    statusLe monoRecSub.status monoRecSucc.status = true :=
  (status_monotonic monoOp0 monoStore0 canvasInit monoStore0_keyed
    trivial).1 "a" monoRecSub monoRecSucc rfl (by decide)

/-! ### C3 — result/error exclusivity -/

/-- The record invariant of the claim: the result payload is (present and)
non-empty exactly in status `succeeded`, and `error` is set exactly in status
`failed`.  In the terminal states a record therefore carries exactly one of
the two — never both and never neither. -/
def WFImage (r : BatchQueueRequest) : Prop :=
  (truthyLen r.resultImages = true ↔ r.status = .succeeded)
  ∧ (r.error.isSome = true ↔ r.status = .failed)

def WFVideo (r : VideoBatchQueueRequest) : Prop :=
  (truthyStr r.resultVideo = true ↔ r.status = .succeeded)
  ∧ (r.error.isSome = true ↔ r.status = .failed)

def StoreWF (s : Store) : Prop :=
  (∀ k r, getQueuedRequest k s = some r → WFImage r)
  ∧ (∀ k r, getVideoQueuedRequest k s = some r → WFVideo r)

/-- Successful result fetches return a non-empty payload. -/
def ResultsNonempty (env : RemoteEnv) : Prop :=
  (∀ name imgs, env.batchResults name = .ok imgs → imgs ≠ [])
  ∧ (∀ name v, env.videoOpResult name = .ok v → v ≠ "")

def OpWF : PanelOp → Store → Prop
  | .selectReq env _ _, _ => ResultsNonempty env
  | .refreshAllOp env _ mem, s =>
    EnvConsistent env s ∧ MemNames mem s ∧ ResultsNonempty env
  | _, _ => True

theorem StoreWF_update_image_succ (s : Store) (i : String) (imgs : List String)
    (now : Nat) (hwf : StoreWF s) (himgs : imgs ≠ [])
    (hns : ∀ r0, getQueuedRequest i s = some r0 → r0.status ≠ .failed) :
    StoreWF (updateQueuedRequest i
      { status := some .succeeded, resultImages := some imgs,
        completedAt := some now } s) := by
  constructor
  · intro k r hget'
    by_cases hid : k = i
    · subst hid
      rw [getQueuedRequest_update, if_pos rfl] at hget'
      cases h0 : getQueuedRequest k s with
      | none => simp [h0] at hget'
      | some r0 =>
        simp only [h0, Option.map_some] at hget'
        have hr : r = applyBatchUpdate r0
            { status := some .succeeded, resultImages := some imgs,
              completedAt := some now } := by
          exact (Option.some.injEq _ _ ▸ hget').symm
        have herr : r.error = r0.error := by
          rw [hr]
          rfl
        have hst : r.status = QueueStatus.succeeded := by
          rw [hr]
          rfl
        have hres : r.resultImages = some imgs := by
          rw [hr]
          rfl
        constructor
        · rw [hres, hst]
          constructor
          · intro _
            rfl
          · intro _
            simp only [truthyLen]
            cases himgs2 : imgs with
            | nil => exact absurd himgs2 himgs
            | cons x xs => simp
        · rw [herr, hst]
          have h1 : r0.error.isSome = true ↔ r0.status = .failed :=
            ((hwf.1 k r0 h0).2)
          constructor
          · intro hx
            exact absurd (h1.mp hx) (hns r0 h0)
          · intro hx
            cases hx
    · rw [getQueuedRequest_update, if_neg hid] at hget'
      exact hwf.1 k r hget'
  · intro k r hget'
    rw [getVideo_of_queue_eq (videoQueue_update i _ s) k] at hget'
    exact hwf.2 k r hget'

theorem StoreWF_update_image_fail (s : Store) (i : String) (msg : String)
    (hwf : StoreWF s)
    (hns : ∀ r0, getQueuedRequest i s = some r0 → r0.status ≠ .succeeded) :
    StoreWF (updateQueuedRequest i
      { status := some .failed, error := some msg } s) := by
  constructor
  · intro k r hget'
    by_cases hid : k = i
    · subst hid
      rw [getQueuedRequest_update, if_pos rfl] at hget'
      cases h0 : getQueuedRequest k s with
      | none => simp [h0] at hget'
      | some r0 =>
        simp only [h0, Option.map_some] at hget'
        have hr : r = applyBatchUpdate r0
            { status := some .failed, error := some msg } := by
          exact (Option.some.injEq _ _ ▸ hget').symm
        have herr : r.error = some msg := by
          rw [hr]
          rfl
        have hst : r.status = QueueStatus.failed := by
          rw [hr]
          rfl
        have hres : r.resultImages = r0.resultImages := by
          rw [hr]
          rfl
        constructor
        · rw [hres, hst]
          have h1 : truthyLen r0.resultImages = true ↔ r0.status = .succeeded :=
            ((hwf.1 k r0 h0).1)
          constructor
          · intro hx
            exact absurd (h1.mp hx) (hns r0 h0)
          · intro hx
            cases hx
        · rw [herr, hst]
          simp
    · rw [getQueuedRequest_update, if_neg hid] at hget'
      exact hwf.1 k r hget'
  · intro k r hget'
    rw [getVideo_of_queue_eq (videoQueue_update i _ s) k] at hget'
    exact hwf.2 k r hget'

theorem StoreWF_update_video_succ (s : Store) (i : String) (video : String)
    (now : Nat) (hwf : StoreWF s) (hv : video ≠ "")
    (hns : ∀ r0, getVideoQueuedRequest i s = some r0 → r0.status ≠ .failed) :
    StoreWF (updateVideoQueuedRequest i
      { status := some .succeeded, resultVideo := some video,
        completedAt := some now } s) := by
  constructor
  · intro k r hget'
    rw [getImage_of_queue_eq (queue_updateVideo i _ s) k] at hget'
    exact hwf.1 k r hget'
  · intro k r hget'
    by_cases hid : k = i
    · subst hid
      rw [getVideoQueuedRequest_update, if_pos rfl] at hget'
      cases h0 : getVideoQueuedRequest k s with
      | none => simp [h0] at hget'
      | some r0 =>
        simp only [h0, Option.map_some] at hget'
        have hr : r = applyVideoUpdate r0
            { status := some .succeeded, resultVideo := some video,
              completedAt := some now } := by
          exact (Option.some.injEq _ _ ▸ hget').symm
        have herr : r.error = r0.error := by
          rw [hr]
          rfl
        have hst : r.status = QueueStatus.succeeded := by
          rw [hr]
          rfl
        have hres : r.resultVideo = some video := by
          rw [hr]
          rfl
        constructor
        · rw [hres, hst]
          simp [truthyStr, hv]
        · rw [herr, hst]
          have h1 : r0.error.isSome = true ↔ r0.status = .failed :=
            ((hwf.2 k r0 h0).2)
          constructor
          · intro hx
            exact absurd (h1.mp hx) (hns r0 h0)
          · intro hx
            cases hx
    · rw [getVideoQueuedRequest_update, if_neg hid] at hget'
      exact hwf.2 k r hget'

theorem StoreWF_update_video_fail (s : Store) (i : String) (msg : String)
    (hwf : StoreWF s)
    (hns : ∀ r0, getVideoQueuedRequest i s = some r0 →
      r0.status ≠ .succeeded) :
    StoreWF (updateVideoQueuedRequest i
      { status := some .failed, error := some msg } s) := by
  constructor
  · intro k r hget'
    rw [getImage_of_queue_eq (queue_updateVideo i _ s) k] at hget'
    exact hwf.1 k r hget'
  · intro k r hget'
    by_cases hid : k = i
    · subst hid
      rw [getVideoQueuedRequest_update, if_pos rfl] at hget'
      cases h0 : getVideoQueuedRequest k s with
      | none => simp [h0] at hget'
      | some r0 =>
        simp only [h0, Option.map_some] at hget'
        have hr : r = applyVideoUpdate r0
            { status := some .failed, error := some msg } := by
          exact (Option.some.injEq _ _ ▸ hget').symm
        have herr : r.error = some msg := by
          rw [hr]
          rfl
        have hst : r.status = QueueStatus.failed := by
          rw [hr]
          rfl
        have hres : r.resultVideo = r0.resultVideo := by
          rw [hr]
          rfl
        constructor
        · rw [hres, hst]
          have h1 : truthyStr r0.resultVideo = true ↔ r0.status = .succeeded :=
            ((hwf.2 k r0 h0).1)
          constructor
          · intro hx
            exact absurd (h1.mp hx) (hns r0 h0)
          · intro hx
            cases hx
        · rw [herr, hst]
          simp
    · rw [getVideoQueuedRequest_update, if_neg hid] at hget'
      exact hwf.2 k r hget'

theorem refreshStep_WF (env : RemoteEnv) (now : Nat) (item : QueueItem)
    (mem : List QueueItem) (s : Store) (hinv : RefreshInv env mem s)
    (hres : ResultsNonempty env) (hmem : item ∈ mem) (hwf : StoreWF s) :
    StoreWF (refreshStep env now item s) := by
  cases item with
  | image req =>
    simp only [refreshStep]
    rcases refresh_image_store_spec env now req s with heq |
      ⟨name, imgs, hst, hname, henv, hresq, heq⟩ |
      ⟨name, st, hst, hname, henv, hterm', heq⟩
    · rw [heq]
      exact hwf
    · rw [heq]
      refine StoreWF_update_image_succ s req.id imgs now hwf
        (hres.1 name imgs hresq) ?_
      intro r0 h0 hfail
      have hn0 : r0.batchJobName = some name := by
        rw [hinv.2.1 req hmem r0 h0, hname]
      exact ((hinv.1.1 req.id r0 name h0 hn0).2 hfail) "JOB_STATE_SUCCEEDED"
        henv rfl
    · rw [heq]
      refine StoreWF_update_image_fail s req.id (jobErrorText st) hwf ?_
      intro r0 h0 hsucc
      have hn0 : r0.batchJobName = some name := by
        rw [hinv.2.1 req hmem r0 h0, hname]
      have := (hinv.1.1 req.id r0 name h0 hn0).1 hsucc st henv
      rcases hterm' with h | h
      · exact this.1 h
      · exact this.2 h
  | video req =>
    simp only [refreshStep]
    rcases refresh_video_store_spec env now req s with heq |
      ⟨name, video, hst, hname, hsok, hresq, heq⟩ |
      ⟨name, st, hst, hname, henv, hstate, heq⟩
    · rw [heq]
      exact hwf
    · rw [heq]
      refine StoreWF_update_video_succ s req.id video now hwf
        (hres.2 name video hresq) ?_
      intro r0 h0 hfail
      have hn0 : r0.operationName = some name := by
        rw [hinv.2.2 req hmem r0 h0, hname]
      obtain ⟨st, hok, hstate⟩ := hsok
      exact ((hinv.1.2 req.id r0 name h0 hn0).2 hfail) st hok hstate
    · rw [heq]
      refine StoreWF_update_video_fail s req.id
        (orElseStr st.error "Video generation failed") hwf ?_
      intro r0 h0 hsucc
      have hn0 : r0.operationName = some name := by
        rw [hinv.2.2 req hmem r0 h0, hname]
      exact ((hinv.1.2 req.id r0 name h0 hn0).1 hsucc) st henv hstate

theorem refreshAll_WF (env : RemoteEnv) (now : Nat) :
    ∀ (items mem : List QueueItem) (s : Store),
      (∀ i ∈ items, i ∈ mem) → RefreshInv env mem s → ResultsNonempty env →
      StoreWF s →
      StoreWF (items.foldl (fun s2 it => refreshStep env now it s2) s) := by
  intro items
  induction items with
  | nil =>
    intro mem s hsub hinv hres hwf
    exact hwf
  | cons head rest ih =>
    intro mem s hsub hinv hres hwf
    have hinv1 := (refreshStep_bundle env now head mem s hinv
      (hsub head (by simp))).1
    have hwf1 := refreshStep_WF env now head mem s hinv hres
      (hsub head (by simp)) hwf
    exact ih mem (refreshStep env now head s) (fun i hi => hsub i (by simp [hi]))
      hinv1 hres hwf1

/-- C3: every operation of the panel preserves the record invariant: in both
namespaces, the result payload (`resultImages` / `resultVideo`) is non-empty
iff the record's status is `succeeded`, and `error` is set iff the status is
`failed` — so a terminal record carries exactly one of result or error, never
both and never neither.  Holds given well-keyed stores, fresh submission ids
being irrelevant here, non-empty successful result fetches, and (for bulk
refresh) a terminal-verdict-consistent oracle. -/
theorem result_error_exclusive (op : PanelOp) (s : Store) (c : Canvas)
    (hk : KeyedById s) (hok2 : OpWF op s) (hwf : StoreWF s) :
    StoreWF (applyOp op (s, c)).1 := by
  cases op with
  | submitImage inp outcome t =>
    show StoreWF (handleQueueForBatch inp outcome t s)
    unfold handleQueueForBatch
    split
    · exact hwf
    · have hmk : getQueuedRequest inp.id (handleQueueForBatch_persist inp s) =
          some (mkQueueRequest inp) := by
        show getKey inp.id (setKey (mkQueueRequest inp).id _ _) = _
        have hmkid : (mkQueueRequest inp).id = inp.id := rfl
        rw [hmkid, getKey_setKey_self]
      constructor
      · intro k r hget'
        by_cases hk2 : k = inp.id
        · subst hk2
          cases outcome with
          | ok v =>
            simp only [postSubmitImage] at hget'
            rw [getQueuedRequest_update, if_pos rfl, hmk] at hget'
            rw [Option.map_some'] at hget'
            have hr : r = applyBatchUpdate (mkQueueRequest inp)
                { status := some .submitted, batchJobName := some v,
                  submittedAt := some t } := by
              exact (Option.some.injEq _ _ ▸ hget').symm
            rw [hr]
            constructor <;> constructor <;> intro hx <;>
              simp [applyBatchUpdate, mkQueueRequest, ovr, truthyLen] at hx
          | error msg =>
            simp only [postSubmitImage] at hget'
            rw [getQueuedRequest_update, if_pos rfl, hmk] at hget'
            rw [Option.map_some'] at hget'
            have hr : r = applyBatchUpdate (mkQueueRequest inp)
                { status := some .failed, error := some msg } := by
              exact (Option.some.injEq _ _ ▸ hget').symm
            rw [hr]
            constructor
            · constructor <;> intro hx <;>
                simp [applyBatchUpdate, mkQueueRequest, ovr, truthyLen] at hx
            · constructor <;> intro hx <;>
                simp [applyBatchUpdate, mkQueueRequest, ovr]
        · have hpersist : getQueuedRequest k
              (handleQueueForBatch_persist inp s) = getQueuedRequest k s := by
            unfold handleQueueForBatch_persist saveQueuedRequest
            show getKey k (setKey (mkQueueRequest inp).id _ _) = _
            rw [getKey_setKey_ne k (mkQueueRequest inp).id _ _ (by exact hk2)]
            rfl
          cases outcome with
          | ok v =>
            simp only [postSubmitImage] at hget'
            rw [getQueuedRequest_update, if_neg hk2, hpersist] at hget'
            exact hwf.1 k r hget'
          | error msg =>
            simp only [postSubmitImage] at hget'
            rw [getQueuedRequest_update, if_neg hk2, hpersist] at hget'
            exact hwf.1 k r hget'
      · intro k r hget'
        have hvq : (postSubmitImage inp outcome t
            (handleQueueForBatch_persist inp s)).videoQueue = s.videoQueue := by
          cases outcome with
          | ok v =>
            show (updateQueuedRequest _ _ _).videoQueue = _
            rw [videoQueue_update]
            rfl
          | error msg =>
            show (updateQueuedRequest _ _ _).videoQueue = _
            rw [videoQueue_update]
            rfl
        rw [getVideo_of_queue_eq hvq k] at hget'
        exact hwf.2 k r hget'
  | submitVideo inp vst outcome t =>
    show StoreWF (handleVideoQueueForBatch inp vst outcome t s)
    unfold handleVideoQueueForBatch
    split
    · exact hwf
    · have hmk : getVideoQueuedRequest inp.id
          (handleVideoQueueForBatch_persist inp vst s) =
          some (mkVideoQueueRequest inp vst) := by
        show getKey inp.id (setKey (mkVideoQueueRequest inp vst).id _ _) = _
        have hmkid : (mkVideoQueueRequest inp vst).id = inp.id := rfl
        rw [hmkid, getKey_setKey_self]
      constructor
      · intro k r hget'
        have hq : (postSubmitVideo inp outcome t
            (handleVideoQueueForBatch_persist inp vst s)).queue = s.queue := by
          cases outcome with
          | ok v =>
            show (updateVideoQueuedRequest _ _ _).queue = _
            rw [queue_updateVideo]
            rfl
          | error msg =>
            show (updateVideoQueuedRequest _ _ _).queue = _
            rw [queue_updateVideo]
            rfl
        rw [getImage_of_queue_eq hq k] at hget'
        exact hwf.1 k r hget'
      · intro k r hget'
        by_cases hk2 : k = inp.id
        · subst hk2
          cases outcome with
          | ok v =>
            simp only [postSubmitVideo] at hget'
            rw [getVideoQueuedRequest_update, if_pos rfl, hmk] at hget'
            rw [Option.map_some'] at hget'
            have hr : r = applyVideoUpdate (mkVideoQueueRequest inp vst)
                { status := some .submitted, operationName := some v,
                  submittedAt := some t } := by
              exact (Option.some.injEq _ _ ▸ hget').symm
            rw [hr]
            constructor <;> constructor <;> intro hx <;>
              simp [applyVideoUpdate, mkVideoQueueRequest, ovr, truthyStr] at hx
          | error msg =>
            simp only [postSubmitVideo] at hget'
            rw [getVideoQueuedRequest_update, if_pos rfl, hmk] at hget'
            rw [Option.map_some'] at hget'
            have hr : r = applyVideoUpdate (mkVideoQueueRequest inp vst)
                { status := some .failed, error := some msg } := by
              exact (Option.some.injEq _ _ ▸ hget').symm
            rw [hr]
            constructor
            · constructor <;> intro hx <;>
                simp [applyVideoUpdate, mkVideoQueueRequest, ovr, truthyStr] at hx
            · constructor <;> intro hx <;>
                simp [applyVideoUpdate, mkVideoQueueRequest, ovr]
        · have hpersist : getVideoQueuedRequest k
              (handleVideoQueueForBatch_persist inp vst s) =
              getVideoQueuedRequest k s := by
            unfold handleVideoQueueForBatch_persist saveVideoQueuedRequest
            show getKey k (setKey (mkVideoQueueRequest inp vst).id _ _) = _
            rw [getKey_setKey_ne k (mkVideoQueueRequest inp vst).id _ _
              (by exact hk2)]
            rfl
          cases outcome with
          | ok v =>
            simp only [postSubmitVideo] at hget'
            rw [getVideoQueuedRequest_update, if_neg hk2, hpersist] at hget'
            exact hwf.2 k r hget'
          | error msg =>
            simp only [postSubmitVideo] at hget'
            rw [getVideoQueuedRequest_update, if_neg hk2, hpersist] at hget'
            exact hwf.2 k r hget'
  | selectReq env now item =>
    cases item with
    | image req =>
      show StoreWF (handleSelectRequest env now (QueueItem.image req) s c).1
      rcases select_image_store_spec env now req s c with heq |
        ⟨fresh, name, imgs, hget, hst, hname, henv, hresq, heq⟩ |
        ⟨fresh, name, stt, hget, hst, hname, henv, hterm', heq⟩
      · rw [heq]
        exact hwf
      · rw [heq]
        refine StoreWF_update_image_succ s fresh.id imgs now hwf
          (hok2.1 name imgs hresq) ?_
        intro r0 h0 hfail
        have hfid : fresh.id = req.id := hk.1 req.id fresh hget
        rw [hfid, hget] at h0
        have : fresh = r0 := Option.some.injEq _ _ ▸ h0
        rw [← this, hst] at hfail
        cases hfail
      · rw [heq]
        refine StoreWF_update_image_fail s fresh.id (jobErrorText stt) hwf ?_
        intro r0 h0 hsucc
        have hfid : fresh.id = req.id := hk.1 req.id fresh hget
        rw [hfid, hget] at h0
        have : fresh = r0 := Option.some.injEq _ _ ▸ h0
        rw [← this, hst] at hsucc
        cases hsucc
    | video req =>
      show StoreWF (handleSelectRequest env now (QueueItem.video req) s c).1
      rcases select_video_store_spec env now req s c with heq |
        ⟨fresh, name, video, hget, hst, hname, hsok, hresq, heq⟩ |
        ⟨fresh, name, stt, hget, hst, hname, henv, hstate, heq⟩
      · rw [heq]
        exact hwf
      · rw [heq]
        refine StoreWF_update_video_succ s fresh.id video now hwf
          (hok2.2 name video hresq) ?_
        intro r0 h0 hfail
        have hfid : fresh.id = req.id := hk.2 req.id fresh hget
        rw [hfid, hget] at h0
        have : fresh = r0 := Option.some.injEq _ _ ▸ h0
        rw [← this, hst] at hfail
        cases hfail
      · rw [heq]
        refine StoreWF_update_video_fail s fresh.id
          (orElseStr stt.error "Video generation failed") hwf ?_
        intro r0 h0 hsucc
        have hfid : fresh.id = req.id := hk.2 req.id fresh hget
        rw [hfid, hget] at h0
        have : fresh = r0 := Option.some.injEq _ _ ▸ h0
        rw [← this, hst] at hsucc
        cases hsucc
  | refreshAllOp env now mem =>
    exact refreshAll_WF env now mem mem s (fun i hi => hi)
      ⟨hok2.1, hok2.2.1⟩ hok2.2.2 hwf
  | deleteReq did isVideo =>
    cases isVideo with
    | false =>
      show StoreWF (deleteQueuedRequest did s)
      constructor
      · intro k r hget'
        by_cases hk2 : k = did
        · subst hk2
          have : getQueuedRequest k (deleteQueuedRequest k s) = none := by
            show getKey k (delKey k s.queue) = none
            exact getKey_delKey_self k s.queue
          rw [this] at hget'
          cases hget'
        · have : getQueuedRequest k (deleteQueuedRequest did s) =
              getQueuedRequest k s := by
            show getKey k (delKey did s.queue) = getKey k s.queue
            exact getKey_delKey_ne k did s.queue hk2
          rw [this] at hget'
          exact hwf.1 k r hget'
      · intro k r hget'
        exact hwf.2 k r hget'
    | true =>
      show StoreWF (deleteVideoQueuedRequest did s)
      constructor
      · intro k r hget'
        exact hwf.1 k r hget'
      · intro k r hget'
        by_cases hk2 : k = did
        · subst hk2
          have : getVideoQueuedRequest k (deleteVideoQueuedRequest k s) =
              none := by
            show getKey k (delKey k s.videoQueue) = none
            exact getKey_delKey_self k s.videoQueue
          rw [this] at hget'
          cases hget'
        · have : getVideoQueuedRequest k (deleteVideoQueuedRequest did s) =
              getVideoQueuedRequest k s := by
            show getKey k (delKey did s.videoQueue) = getKey k s.videoQueue
            exact getKey_delKey_ne k did s.videoQueue hk2
          rw [this] at hget'
          exact hwf.2 k r hget'

theorem monoStore0_wf : StoreWF monoStore0 := by
  constructor
  · intro k r h
    by_cases hk : "a" = k
    · simp only [getQueuedRequest, monoStore0, getKey, if_pos hk] at h
      injection h with h2
      rw [← h2]
      unfold WFImage
      decide
    · simp only [getQueuedRequest, monoStore0, getKey, if_neg hk] at h
      cases h
  · intro k r h
    simp only [getVideoQueuedRequest, monoStore0, getKey] at h
    cases h

theorem monoEnv_results_nonempty : ResultsNonempty monoEnv := by
  constructor
  · intro name imgs h
    injection h with h2
    rw [← h2]
    decide
  · intro name v h
    injection h with h2
    rw [← h2]
    decide

theorem result_error_exclusive_witness : WFImage monoRecSucc :=
  (result_error_exclusive monoOp0 monoStore0 canvasInit monoStore0_keyed
    monoEnv_results_nonempty monoStore0_wf).1 "a" monoRecSucc (by decide)
